import Mathlib

/-!
# Verification of the Jan-Sahayak dialogue controller

This file gives a shallow embedding of the conversation/dialogue manager of
the Jan-Sahayak repository and proves properties claimed by its
specification.  The embedded code is the corrected hook variant defined in
`src/components/AssistantWidget.jsx` (the `useVoiceAssistant` function with
ref-based state, lines 102-442), together with the speech-output path of
`src/hooks/useVoiceAssistant.js` and the static configuration in
`src/config/conversationQuestions.js`.

Modelling conventions:
* JavaScript strings are Lean `String`s (lists of characters); regular
  expressions over them are implemented as explicit scanning functions with
  the exact left-to-right, ordered-alternation, non-overlapping semantics of
  `String.prototype.replace`/`match` on the concrete patterns the source
  uses.
* React state setters and refs (`setStateAndRef`, `setStepAndRef`,
  `collectedDataRef`, ...) become fields of an explicit session record
  `Sys`; every assignment to the AI-state variable is additionally recorded
  in a ghost trace `stateTrace`.
* Asynchronous speech output is modelled at utterance granularity: a `speak`
  call whose utterance runs to completion (every code path of the source
  resolves it) appends the text to the history and ends in the `listening`
  state, after which its `onEnd` continuation runs, exactly as in the
  source.
* Network effects are oracles passed as parameters; fire-and-forget
  requests (`/save-form`) and deferred triggers (`setTimeout(onDownload)`)
  are counted in the session record.
-/

namespace JanSahayak

/-! ## Character classes

`Char.isDigit` matches the JavaScript `\d` class `[0-9]`.  `isSpaceC`
models the JavaScript `\s` class for the character repertoire the source
manipulates (ASCII whitespace). -/

/-- JavaScript whitespace class `\s`, restricted to ASCII whitespace. -/
def isSpaceC (c : Char) : Bool :=
  c = ' ' || c = '\t' || c = '\n' || c = '\r' || c = '\x0b' || c = '\x0c'

/-! ## FieldExtractor: `extractValue` from AssistantWidget.jsx lines 409-428 -/

/-- Take exactly `n` leading digit characters, returning them and the rest;
`none` if fewer than `n` digits lead the list.  Implements one `\d{n}`
atom of the source's regular expressions. -/
def takeDigits : Nat → List Char → Option (List Char × List Char)
  | 0, l => some ([], l)
  | _ + 1, [] => none
  | n + 1, c :: l =>
    if c.isDigit then
      match takeDigits n l with
      | some (d, r) => some (c :: d, r)
      | none => none
    else none

/-- Leftmost match of `/\d{10}/`: the first position at which ten
consecutive digits start, returning those ten digits
(`text.match(/\d{10}/)?.[0]`). -/
def findRun10 : List Char → Option (List Char)
  | [] => none
  | c :: l =>
    match takeDigits 10 (c :: l) with
    | some (d, _) => some d
    | none => findRun10 l

/-- Consume one optional whitespace character, the `\s?` atom.  Because a
whitespace character is never a digit, the greedy `\s?` of the source's
regex is deterministic: the space is consumed exactly when present. -/
def skipOptSpace : List Char → List Char × List Char
  | [] => ([], [])
  | c :: l => if isSpaceC c then ([c], l) else ([], c :: l)

/-- Match `/\d{4}\s?\d{4}\s?\d{4}/` anchored at the head of the list,
returning the matched characters (separating spaces included, as
`match[0]` does). -/
def matchAadharAt (l : List Char) : Option (List Char) :=
  match takeDigits 4 l with
  | none => none
  | some (d1, r1) =>
    let p1 := skipOptSpace r1
    match takeDigits 4 p1.2 with
    | none => none
    | some (d2, r2) =>
      let p2 := skipOptSpace r2
      match takeDigits 4 p2.2 with
      | none => none
      | some (d3, _) => some (d1 ++ p1.1 ++ d2 ++ p2.1 ++ d3)

/-- Leftmost match of `/\d{4}\s?\d{4}\s?\d{4}/` in the list
(`text.match(/\d{4}\s?\d{4}\s?\d{4}/)?.[0]`). -/
def findAadhar : List Char → Option (List Char)
  | [] => none
  | c :: l =>
    match matchAadharAt (c :: l) with
    | some m => some m
    | none => findAadhar l

/-- The filler alternatives of
`/(my name is|mera naam|naam|hai|is|hain|ji)/gi`, in source order (regex
alternation tries them left to right). -/
def fillers : List (List Char) :=
  ["my name is".toList, "mera naam".toList, "naam".toList,
   "hai".toList, "is".toList, "hain".toList, "ji".toList]

/-- Case-insensitive prefix removal: if `pat` (case-insensitively) leads
`l`, return the remainder. -/
def dropPatCI : List Char → List Char → Option (List Char)
  | [], l => some l
  | _ :: _, [] => none
  | p :: ps, c :: cs => if p.toLower = c.toLower then dropPatCI ps cs else none

/-- Try the filler alternatives in order at the head of the list. -/
def tryFillers : List (List Char) → List Char → Option (List Char)
  | [], _ => none
  | p :: ps, l =>
    match dropPatCI p l with
    | some r => some r
    | none => tryFillers ps l

/-- Global case-insensitive deletion of the filler words, with the
non-overlapping left-to-right scan of `String.prototype.replace`: at each
position the first matching alternative is removed and scanning resumes
after it.  The fuel argument bounds the recursion; every step consumes at
least one character, so fuel equal to the length of the list is enough. -/
def gsubFillersF : Nat → List Char → List Char
  | 0, _ => []
  | _ + 1, [] => []
  | fuel + 1, c :: l =>
    match tryFillers fillers (c :: l) with
    | some rest => gsubFillersF fuel rest
    | none => c :: gsubFillersF fuel l

/-- `text.replace(/(my name is|mera naam|naam|hai|is|hain|ji)/gi, '')`. -/
def gsubFillers (l : List Char) : List Char :=
  gsubFillersF l.length l

/-- `replace(/\s+/g, ' ')`: collapse every maximal whitespace run to one
space. -/
def collapseWs : List Char → List Char
  | [] => []
  | [c] => [if isSpaceC c then ' ' else c]
  | c :: d :: l =>
    if isSpaceC c && isSpaceC d then collapseWs (d :: l)
    else (if isSpaceC c then ' ' else c) :: collapseWs (d :: l)

/-- `String.prototype.trim`: drop leading and trailing whitespace. -/
def trimWs (l : List Char) : List Char :=
  ((l.dropWhile isSpaceC).reverse.dropWhile isSpaceC).reverse

/-- The generic-text cleaning pipeline of `extractValue`: strip filler
words, collapse whitespace, trim. -/
def cleanGeneric (text : String) : String :=
  String.mk (trimWs (collapseWs (gsubFillers text.toList)))

/-- The closed reject list
`/^(tell|call|what|how|why|can|ok|yes|no|stop|help|hello|hi)$/i`. -/
def rejectWords : List String :=
  ["tell", "call", "what", "how", "why", "can", "ok", "yes", "no",
   "stop", "help", "hello", "hi"]

/-- Lower-case an entire string (the `/i` flag of the reject regex). -/
def toLowerStr (s : String) : String :=
  String.mk (s.toList.map Char.toLower)

/-- Whether the cleaned text matches the anchored, case-insensitive reject
regex. -/
def isRejected (s : String) : Bool :=
  rejectWords.contains (toLowerStr s)

/-- Embeds `extractValue` of src/components/AssistantWidget.jsx lines
409-428.  The field type is `none` when the step index runs past the field
list (JavaScript `fields[step]` is `undefined` there, which falls through
to the generic branch). -/
def extractValue (text : String) (fieldType : Option String) : Option String :=
  if text = "" then none
  else if fieldType = some "mobile" then
    match findRun10 text.toList with
    | some r => some (String.mk r)
    | none =>
      let d := (text.toList.filter Char.isDigit).take 10
      if d = [] then none else some (String.mk d)
  else if fieldType = some "aadhar" then
    match findAadhar text.toList with
    | some m => some (String.mk m)
    | none =>
      let d := (text.toList.filter Char.isDigit).take 12
      if d = [] then none else some (String.mk d)
  else
    let cleaned := cleanGeneric text
    if isRejected cleaned || cleaned.length < 2 then none
    else some cleaned

/-! ## Static configuration: conversationQuestions.js -/

/-- Embeds `SCHEME_FIELD_ORDER` from src/config/conversationQuestions.js:
the ordered field keys of each scheme, matching the PDF form layout. -/
def SCHEME_FIELD_ORDER : List (String × List String) := [
  ("pm-kisan", ["state", "district", "subDistrict", "village", "name", "fatherName", "gender", "aadhar", "mobile", "dob", "bankAccount", "ifsc", "bankName", "address", "landArea"]),
  ("ujjwala", ["name", "gender", "aadhar", "mobile", "bankAccount", "ifsc", "bplNumber", "address"]),
  ("sukanya-samriddhi", ["daughterName", "fatherName", "motherName", "daughterDOB", "name", "aadhar", "mobile", "address", "bankAccount"]),
  ("kisan-credit", ["name", "fatherName", "aadhar", "mobile", "village", "district", "state", "landArea", "cropType", "bankAccount", "ifsc", "bankName", "address"]),
  ("ration-card", ["name", "fatherName", "husbandName", "aadhar", "mobile", "address", "familyMembers", "income", "cardType"]),
  ("vidhva-sahay", ["name", "aadhar", "mobile", "husbandName", "deathCertNo", "bankAccount", "ifsc", "address"]),
  ("ayushman-bharat", ["name", "aadhar", "mobile", "dob", "gender", "familyMembers", "income", "existingDiseases", "address"]),
  ("pm-awas", ["name", "fatherName", "aadhar", "mobile", "income", "category", "plotSize", "currentAddress"])
]

/-- The hi/gu/en question texts of one field key in `FIELD_QUESTIONS`. -/
structure QTriple where
  hi : String
  gu : String
  en : String
deriving DecidableEq, Repr

/-- Embeds `FIELD_QUESTIONS` from src/config/conversationQuestions.js:
per-field question text in Hindi, Gujarati and English. -/
def FIELD_QUESTIONS : List (String × QTriple) := [
  ("name", ⟨"दादाजी, सबसे पहले बताइये — आपका नाम क्या है? जैसे \x27राजेश कुमार\x27।", "દાદા, સૌ પ્રથમ કહો — તમારું નામ શું છે? જેમ કે \x27રાજેશ કુમાર\x27.", "First, tell me your full name please! Like \x27Rajesh Kumar\x27."⟩),
  ("fatherName", ⟨"अच्छा, अब बताइये — आपके पिताजी का नाम क्या है?", "સારું, હવે કહો — તમારા પિતાજીનું નામ શું છે?", "Now tell me your father\x27s name."⟩),
  ("motherName", ⟨"और आपकी माताजी का नाम क्या है?", "અને તમારા માતાજીનું નામ શું છે?", "What is your mother\x27s name?"⟩),
  ("husbandName", ⟨"आपके पति का नाम क्या था?", "તમારા પતિનું નામ શું હતું?", "What was your husband\x27s name?"⟩),
  ("daughterName", ⟨"बेटी का नाम क्या है?", "દીકરીનું નામ શું છે?", "What is your daughter\x27s name?"⟩),
  ("daughterDOB", ⟨"बेटी का जन्म कब हुआ था? दिन, महीना, साल बताइये।", "દીકરી ક્યારે જન્મી? દિવસ, મહિનો, વર્ષ કહો.", "When was your daughter born? Tell me the date."⟩),
  ("gender", ⟨"आप पुरुष हैं या महिला?", "તમે પુરુષ છો કે મહિલા?", "Are you male or female?"⟩),
  ("dob", ⟨"आपका जन्म कब हुआ था? दिन, महीना, साल बताइये।", "તમારો જન્મ ક્યારે થયો? દિવસ, મહિનો, વર્ષ કહો.", "When were you born? Tell me your date of birth."⟩),
  ("aadhar", ⟨"अब आधार नंबर बताइये — वो 12 अंकों वाला नंबर जो आधार कार्ड पर होता है।", "હવે આધાર નંબર કહો — આધાર કાર્ડ પર 12 આંકડાનો નંબર હોય છે.", "Tell me your Aadhar number — the 12-digit number on your Aadhar card."⟩),
  ("mobile", ⟨"आपका मोबाइल नंबर क्या है? 10 अंकों का।", "તમારો મોબાઈલ નંબર શું છે? 10 આંકડાનો.", "What is your 10-digit mobile number?"⟩),
  ("bankAccount", ⟨"बैंक का खाता नंबर बताइये। बैंक की पासबुक पर होता है।", "બેંકનો ખાતા નંબર કહો. બેંકની પાસબુક પર હોય છે.", "Tell me your bank account number — it\x27s on your passbook."⟩),
  ("ifsc", ⟨"IFSC कोड बताइये। बैंक की पासबुक के पहले पन्ने पर होता है।", "IFSC કોડ કહો. બેંકની પાસબુકના પ્રથમ પૃષ્ઠ પર હોય છે.", "What is the IFSC code? You\x27ll find it on the first page of your passbook."⟩),
  ("bankName", ⟨"बैंक का नाम और शाखा (Branch) बताइये। जैसे \x27SBI, आनंद शाखा\x27।", "બેંકનું નામ અને શાખા કહો. જેમ કે \x27SBI, આણંદ શાખા\x27.", "What is your bank name and branch? Like \x27SBI, Anand Branch\x27."⟩),
  ("village", ⟨"आप किस गाँव में रहते हैं?", "તમે કયા ગામ/વિસ્તારમાં રહો છો?", "Which village or area do you live in?"⟩),
  ("subDistrict", ⟨"आपकी तहसील या तालुका का नाम क्या है?", "તમારી તાલુકાનું નામ શું છે?", "What is your taluka or sub-district name?"⟩),
  ("district", ⟨"आपका जिला कौन सा है?", "તમારો જિલ્લો કયો છે?", "Which district do you live in?"⟩),
  ("state", ⟨"आप किस राज्य में रहते हैं? जैसे \x27गुजरात\x27 या \x27राजस्थान\x27।", "તમે કયા રાજ્યમાં રહો છો? જેવા કે \x27ગુજરાત\x27.", "Which state do you live in? Like \x27Gujarat\x27 or \x27Rajasthan\x27."⟩),
  ("address", ⟨"अब पूरा पता बताइये — घर नंबर, गाँव, जिला, और पिन कोड।", "હવે પૂરું સરનામું કહો — ઘર નંબર, ગામ, જિલ્લો, અને પિન કોડ.", "Tell me your full address — house number, village, district, and PIN code."⟩),
  ("currentAddress", ⟨"अभी आप कहाँ रह रहे हैं? वर्तमान पता बताइये।", "હાલ તમે ક્યાં રહો છો? વર્તમાન સરનામું કહો.", "Where are you living currently? Tell me your current address."⟩),
  ("landArea", ⟨"आपकी खेती की जमीन कितनी है? हेक्टेयर में बताइये। जैसे \x272.5 हेक्टेयर\x27।", "તમારી ખેતીની જમીન કેટલી છે? હેક્ટરમાં કહો. જેવા કે \x272.5 હેક્ટર\x27.", "How many hectares of farmland do you have? Like \x272.5 hectares\x27."⟩),
  ("cropType", ⟨"आप कौन सी फसल उगाते हैं? जैसे \x27गेहूं\x27 या \x27मक्का\x27।", "તમે કઈ ફસલ ઉગાડો છો? જેવા કે \x27ઘઉં\x27 અથવા \x27મકાઈ\x27.", "What crops do you grow? Like \x27wheat\x27 or \x27corn\x27."⟩),
  ("income", ⟨"साल भर में कितनी कमाई होती है? रुपयों में बताइये।", "આખા વર્ષમાં કેટલી આવક થાય છે? રૂપિયામાં કહો.", "How much do you earn in a year? Tell me in rupees."⟩),
  ("familyMembers", ⟨"आपके घर में कुल कितने लोग हैं?", "તમારા ઘરમાં કુલ કેટલા લોકો છે?", "How many people live in your house?"⟩),
  ("cardType", ⟨"आपका राशन कार्ड कौन सा है? APL है, BPL है, या अंत्योदय?", "તમારું રેશન કાર્ડ કયું છે? APL, BPL, કે અંત્યોદય?", "What type is your ration card? APL, BPL, or Antyodaya?"⟩),
  ("bplNumber", ⟨"BPL राशन कार्ड नंबर बताइये।", "BPL રેશન કાર્ડ નંબર કહો.", "Tell me your BPL ration card number."⟩),
  ("deathCertNo", ⟨"मृत्यु प्रमाण पत्र का नंबर बताइये। वो कागज़ जो अस्पताल या सरकार ने दिया था।", "મૃત્યુ પ્રમાણ પત્રનો નંબર કહો.", "Tell me the death certificate number."⟩),
  ("existingDiseases", ⟨"क्या आपको पहले से कोई बीमारी है? जैसे \x27शुगर\x27 या \x27BP\x27? अगर नहीं तो कहें \x27नहीं\x27।", "શું તમને પહેલેથી કોઈ બીમારી છે? જેવા કે \x27ડાયાબિટીઝ\x27? ન હોય તો \x27ના\x27 કહો.", "Do you have any existing illness like diabetes or BP? Say \x27No\x27 if none."⟩),
  ("plotSize", ⟨"आपके प्लॉट का साइज़ कितना है? वर्ग फुट में।", "તમારા પ્લૉટનું કદ કેટલું છે? ચોરસ ફૂટમાં.", "What is your plot size in square feet?"⟩),
  ("category", ⟨"आप किस श्रेणी से हैं? सामान्य, OBC, SC, या ST?", "તમે કઈ કેટેગરીના છો? General, OBC, SC, કે ST?", "What is your category? General, OBC, SC, or ST?"⟩)
]

/-! ## Conversation phrases (`PHRASES` in conversationQuestions.js)

`langCode` is `language.split('-')[0]`; the lookups
`PHRASES.x[langCode] || PHRASES.x.hi` fall back to Hindi for any other
language code. -/

/-- `language.split('-')[0]`: the part of the language tag before the first
dash. -/
def langCodeOf (language : String) : String :=
  String.mk (language.toList.takeWhile (fun c => c ≠ '-'))

/-- `PHRASES.gotIt[langCode] || PHRASES.gotIt.hi`, applied to the extracted
value (each entry is a template function of the value). -/
def gotItPhrase (langCode : String) (v : String) : String :=
  if langCode = "hi" then "बढ़िया! मैंने लिख लिया — \"" ++ v ++ "\"।"
  else if langCode = "gu" then "સરસ! મેં લખી લીધું — \"" ++ v ++ "\"."
  else if langCode = "en" then "Great! I got — \"" ++ v ++ "\"."
  else "बढ़िया! मैंने लिख लिया — \"" ++ v ++ "\"।"

/-- `PHRASES.retry[langCode] || PHRASES.retry.hi`. -/
def retryPhrase (langCode : String) : String :=
  if langCode = "hi" then "माफ़ करना, मुझे ठीक से सुनाई नहीं दिया। क्या थोड़ा ज़ोर से और फिर से बोलेंगे?"
  else if langCode = "gu" then "માફ કરો, મને સ્પષ્ટ સંભળ્યું નહીં. જરા મોટેથી ફરીથી કહો?"
  else if langCode = "en" then "Sorry, I didn\x27t hear that clearly. Could you say it again a little louder?"
  else "माफ़ करना, मुझे ठीक से सुनाई नहीं दिया। क्या थोड़ा ज़ोर से और फिर से बोलेंगे?"

/-- `PHRASES.done[langCode] || PHRASES.done.hi`. -/
def donePhrase (langCode : String) : String :=
  if langCode = "hi" then "शाबाश! सारी जानकारी मिल गई। बहुत अच्छा किया! अब आपका सरकारी फॉर्म तैयार है।"
  else if langCode = "gu" then "શાબાશ! બધી માહિતી મળી ગઈ. ઘણું સારું! હવે તમારું સરકારી ફોર્મ તૈયાર છે."
  else if langCode = "en" then "Well done! All information collected. Your official government form is ready!"
  else "शाबाश! सारी जानकारी मिल गई। बहुत अच्छा किया! अब आपका सरकारी फॉर्म तैयार है।"

/-- The triage help message of `startConversation` (AssistantWidget.jsx
lines 307-311), selected on the full language tag. -/
def helpMsg (lang : String) : String :=
  if lang = "hi-IN" then "मैं आपकी कैसे सहायता कर सकती हूँ? आप किस सरकारी योजना के लिए फॉर्म भरना चाहते हैं?"
  else if lang = "gu-IN" then "હું આપની કઈ રીતે સહાય કરી શકું? આપ કઈ સરકારી યોજના માટે ફોર્મ ભરવા ઇચ્છો છો?"
  else "How can I help you? Which government scheme would you like to apply for?"

/-! ## SessionState and the DialogueController -/

/-- The `AI_STATE` string constants of useVoiceAssistant. -/
inductive AIState where
  | idle
  | speaking
  | listening
  | processing
  | completed
  | triage
deriving DecidableEq, Repr

/-- A form definition as consumed by the hook: an identifier and an ordered
field list (the `scheme` prop). -/
structure Scheme where
  id : String
  fields : List String
deriving DecidableEq, Repr

/-- The JSON body answered by `POST /recommend-scheme`. -/
structure RecommendResp where
  success : Bool
  message : String
  scheme_id : String
deriving DecidableEq, Repr

/-- The session state owned by the hook, together with ghost fields
recording its outward side effects:

* `state`, `step`, `language`, `collected`, `history` mirror
  `stateRef/currentStepRef/languageRef/collectedDataRef/conversationHistory`;
* `stateTrace` records every value assigned to the state variable, in
  order;
* `spoken` records every text actually handed to speech output;
* `fieldUpdates` records every `onFieldUpdate(fieldKey, value)` call;
* `schemeChanges` records every `onSchemeChange(schemeId)` call;
* `saves` counts `POST /save-form` requests and `downloads` counts
  `setTimeout(onDownload, 2000)` registrations. -/
structure Sys where
  state : AIState
  step : Nat
  language : String
  collected : List (String × String)
  history : List (String × String)
  stateTrace : List AIState
  spoken : List String
  fieldUpdates : List (String × String)
  schemeChanges : List String
  saves : Nat
  downloads : Nat
deriving DecidableEq, Repr

/-- The session before any conversation: state `idle`, default language
`hi-IN`, nothing collected, no side effects. -/
def initSys : Sys :=
  { state := .idle, step := 0, language := "hi-IN", collected := [],
    history := [], stateTrace := [], spoken := [], fieldUpdates := [],
    schemeChanges := [], saves := 0, downloads := 0 }

/-- `setStateAndRef`: assign the state variable, recording the assignment
in the ghost trace. -/
def setStateG (s : Sys) (st : AIState) : Sys :=
  { s with state := st, stateTrace := s.stateTrace ++ [st] }

/-- The object-spread update `{ ...data, [key]: value }`: replace the value
of an existing key in place, or append a new key at the end. -/
def upsert (l : List (String × String)) (key v : String) : List (String × String) :=
  if l.any (fun p => p.1 = key) then
    l.map (fun p => if p.1 = key then (key, v) else p)
  else l ++ [(key, v)]

/-- `getFieldOrder`: `SCHEME_FIELD_ORDER[scheme.id] || scheme.fields || []`. -/
def getFieldOrder (scheme : Option Scheme) : List String :=
  match scheme with
  | none => []
  | some s =>
    match SCHEME_FIELD_ORDER.lookup s.id with
    | some fs => fs
    | none => s.fields

/-- `getQuestion`: `FIELD_QUESTIONS[fieldKey]?.[langCode] ||
FIELD_QUESTIONS[fieldKey]?.hi || "Please tell me your " + fieldKey`. -/
def getQuestion (language : String) (fieldKey : String) : String :=
  let lc := langCodeOf language
  match FIELD_QUESTIONS.lookup fieldKey with
  | some q =>
    if lc = "hi" then q.hi
    else if lc = "gu" then q.gu
    else if lc = "en" then q.en
    else q.hi
  | none => "Please tell me your " ++ fieldKey

/-- One completed `speak(text)` call of AssistantWidget.jsx lines 166-232:
an empty text returns at once; otherwise the state is set to `speaking`,
the text is appended to the history (before playback) and to the spoken
log, and — on every code path of the source (remote success, playback
error, autoplay rejection, browser fallback) — the call resolves with the
state set to `listening`.  The caller then runs its `onEnd` continuation. -/
def speakDone (s : Sys) (text : String) : Sys :=
  if text = "" then s
  else
    let s1 := setStateG s .speaking
    let s2 := { s1 with history := s1.history ++ [("ai", text)],
                        spoken := s1.spoken ++ [text] }
    setStateG s2 .listening

/-- `askNextQuestion(stepIndex)`: return if the index is past the field
list, otherwise speak the question of the field at the index. -/
def askNextQuestion (scheme : Option Scheme) (stepIndex : Nat) (s : Sys) : Sys :=
  match (getFieldOrder scheme).get? stepIndex with
  | none => s
  | some fieldKey => speakDone s (getQuestion s.language fieldKey)

/-- `startConversation(lang)` of AssistantWidget.jsx lines 294-320.  The
time-dependent greeting produced by `getDynamicGreeting` is a parameter.
With no scheme the session enters triage and speaks the greeting plus the
help message; with a scheme it speaks the greeting and then asks field 0. -/
def startConversation (scheme : Option Scheme) (greeting lang : String)
    (s : Sys) : Sys :=
  let s := { s with language := lang, history := [], step := 0, collected := [] }
  match scheme with
  | none =>
    let s := setStateG s .triage
    speakDone s (greeting ++ " " ++ helpMsg lang)
  | some _ =>
    let s := speakDone s greeting
    askNextQuestion scheme 0 s

/-- `processResponse(transcript)` of AssistantWidget.jsx lines 323-407,
with every utterance it starts run to completion (see `speakDone`).
`recommend` is the oracle for the `/recommend-scheme` request: `.error`
models a network failure reaching the `catch`.  In the collecting branch
the answer is extracted against the field at the current step; a success
stores the value, notifies `onFieldUpdate`, and either advances to the
next question or — after the last field — marks the session completed,
speaks the completion message, fires the save request and registers the
download trigger.  A failed extraction speaks the retry phrase and re-asks
the same question. -/
def processResponse (scheme : Option Scheme) (recommend : Except Unit RecommendResp)
    (s : Sys) (transcript : String) : Sys :=
  if transcript = "" then s
  else
    let currentState := s.state
    let s := setStateG s .processing
    let s := { s with history := s.history ++ [("user", transcript)] }
    if currentState = .triage ∨ currentState = .idle then
      match recommend with
      | .ok data =>
        if data.success then
          let s := speakDone s data.message
          { s with schemeChanges := s.schemeChanges ++ [data.scheme_id] }
        else
          speakDone s (if data.message = "" then retryPhrase (langCodeOf s.language)
                       else data.message)
      | .error _ => speakDone s (retryPhrase (langCodeOf s.language))
    else
      let fields := getFieldOrder scheme
      let step := s.step
      let fieldKey := fields.get? step
      match extractValue transcript fieldKey with
      | some v =>
        if 1 ≤ v.length then
          let key := fieldKey.getD "undefined"
          let s := { s with collected := upsert s.collected key v,
                            fieldUpdates := s.fieldUpdates ++ [(key, v)] }
          let ack := gotItPhrase (langCodeOf s.language) v
          let nextStep := step + 1
          if nextStep < fields.length then
            let s := { s with step := nextStep }
            let s := speakDone s ack
            askNextQuestion scheme nextStep s
          else
            let s := setStateG s .completed
            let s := speakDone s (donePhrase (langCodeOf s.language))
            { s with saves := s.saves + 1, downloads := s.downloads + 1 }
        else
          let s := speakDone s (retryPhrase (langCodeOf s.language))
          askNextQuestion scheme step s
      | none =>
        let s := speakDone s (retryPhrase (langCodeOf s.language))
        askNextQuestion scheme step s

/-! ## Specification-side predicate for the aadhar format

Stated from the specification's words: "first run matching a 4-4-4 digit
grouping (with optional separating spaces)". -/

/-- A 4-4-4 digit grouping with at most one whitespace character between
consecutive groups. -/
def isAadharGroup (m : List Char) : Prop :=
  ∃ d1 s1 d2 s2 d3 : List Char,
    m = d1 ++ s1 ++ d2 ++ s2 ++ d3 ∧
    d1.length = 4 ∧ d2.length = 4 ∧ d3.length = 4 ∧
    (∀ c ∈ d1, c.isDigit) ∧ (∀ c ∈ d2, c.isDigit) ∧ (∀ c ∈ d3, c.isDigit) ∧
    s1.length ≤ 1 ∧ s2.length ≤ 1 ∧
    (∀ c ∈ s1, isSpaceC c) ∧ (∀ c ∈ s2, isSpaceC c)

/-! ## Audio playback model (for the `speak` cancellation guarantees)

`speak` (AssistantWidget.jsx lines 166-232) interacts with the single
global slot `window.currentAudio`:

* on entry it pauses the tracked audio, detaches its `onended` handler and
  clears the slot, then issues the `/speak` request (`start`);
* when the request resolves it stores a new `Audio` element in the slot and
  starts playback — without touching any audio element that is no longer
  tracked (`resolve`);
* when a playing audio element ends naturally, its `onended` handler clears
  the slot and fires the utterance's completion (`finish`); a paused
  (cancelled) element never ends naturally, and its handler was detached.

Utterances are named by numeric ids; an id is used by at most one `speak`
call (enforced by the `started` guard). -/

structure AudioSys where
  /-- ids whose `/speak` request is in flight -/
  pending : List Nat
  /-- the id tracked by `window.currentAudio` -/
  current : Option Nat
  /-- ids whose audio element is currently playing -/
  playing : List Nat
  /-- ids whose completion callback has fired (with multiplicity) -/
  ends : List Nat
  /-- ids that have ever been passed to `speak` -/
  started : List Nat
deriving DecidableEq, Repr

/-- The audio system before any `speak` call. -/
def initAudio : AudioSys :=
  { pending := [], current := none, playing := [], ends := [], started := [] }

/-- Events of the audio subsystem. -/
inductive AEvent where
  /-- a `speak` call begins: cancel the tracked audio, start the request -/
  | start (u : Nat)
  /-- the `/speak` request of `u` resolves and its audio starts playing -/
  | resolve (u : Nat)
  /-- the audio element of `u` finishes playing naturally -/
  | finish (u : Nat)
deriving DecidableEq, Repr

/-- One audio event, following the source code paths described above. -/
def astep (s : AudioSys) : AEvent → AudioSys
  | .start u =>
    if u ∈ s.started then s
    else
      let s :=
        match s.current with
        | some c => { s with playing := s.playing.erase c, current := none }
        | none => s
      { s with pending := s.pending ++ [u], started := u :: s.started }
  | .resolve u =>
    if u ∈ s.pending then
      { s with pending := s.pending.erase u, current := some u,
               playing := s.playing ++ [u] }
    else s
  | .finish u =>
    if u ∈ s.playing then
      { s with playing := s.playing.erase u, current := none,
               ends := s.ends ++ [u] }
    else s

/-- Run a sequence of audio events. -/
def runAudio (s : AudioSys) (evs : List AEvent) : AudioSys :=
  evs.foldl astep s

/-- The discipline under which the source keeps a single active utterance:
every `speak` call begins while no `/speak` request is still in flight
(so any earlier utterance is either already playing - and is cancelled -
or already finished). -/
def startsIdle : AudioSys → List AEvent → Prop
  | _, [] => True
  | s, e :: evs =>
    (∀ u, e = .start u → s.pending = []) ∧ startsIdle (astep s e) evs

/-! ## Remote TTS with local fallback (`speak` of useVoiceAssistant.js
lines 69-149)

The environment of one `speak` call: whether the `/speak` fetch throws,
whether the response status is ok, and the fate of the created media
element.  `onended`/`onerror` and the `play()` promise are independent
channels in the source: `onended` fires on successful playback,
`onerror` fires on a media error, and a rejected `play()` runs
`fallbackSpeak`.  A blocked autoplay rejects `play()` alone, a
mid-playback media error fires `onerror` alone — but an empty or
undecodable 200 payload does both: the element's `error` event fires
(setState LISTENING, `onEnd`) and `play()` rejects (`fallbackSpeak`,
a second `onEnd`), so the completion can fire twice.  The relative order
of the two handlers is browser-dependent, but both observable summaries
(trace of listening assignments, completion count) are the same either
way.  Local synthesis resolves through `onend` or `onerror`, both of
which continue the flow. -/

structure SpeakEnv where
  /-- the `fetch('/api/speak')` call throws (network failure) -/
  fetchThrows : Bool
  /-- `response.ok` -/
  responseOk : Bool
  /-- the media element's `error` event fires (empty/undecodable payload,
  or a mid-playback media error) -/
  mediaErrors : Bool
  /-- the `play()` promise rejects (autoplay blocked, or no supported
  source — the latter co-occurring with the `error` event) -/
  playRejects : Bool
  /-- the local utterance ends with `onerror` instead of `onend` -/
  localErrors : Bool
deriving DecidableEq, Repr

/-- Observable outcome of one `speak` call: the values assigned to the AI
state in order, how many times the `onEnd` completion fired, and whether
the local synthesizer was used. -/
structure SpeakRes where
  stateTrace : List AIState
  onEndCount : Nat
  usedLocal : Bool
deriving DecidableEq, Repr

/-- `fallbackSpeak(text, onEnd)` of useVoiceAssistant.js lines 137-149:
both `utterance.onend` and `utterance.onerror` set the state to listening
and fire `onEnd` once. -/
def fallbackSpeak (env : SpeakEnv) : SpeakRes :=
  if env.localErrors then ⟨[.listening], 1, true⟩
  else ⟨[.listening], 1, true⟩

/-- `speak(text, onEnd)` of useVoiceAssistant.js lines 69-134: an empty
text returns without any effect; otherwise the state is set to `speaking`
and the remote audio is requested.  A thrown fetch or a non-ok status is
caught and falls back to local synthesis.  Otherwise the media element's
own handlers and the `play()` rejection handler act independently:
`onended` (successful playback, i.e. neither a media error nor a
rejection) and `onerror` (media error) each set the state to listening
and fire `onEnd`; a rejected `play()` runs `fallbackSpeak`, which fires
`onEnd` again — so an undecodable payload (media error plus rejection)
fires the completion twice. -/
def speakRemote (env : SpeakEnv) (text : String) : SpeakRes :=
  if text = "" then ⟨[], 0, false⟩
  else if env.fetchThrows || !env.responseOk then
    let f := fallbackSpeak env
    ⟨.speaking :: f.stateTrace, f.onEndCount, f.usedLocal⟩
  else
    let handlers : SpeakRes :=
      if env.mediaErrors then ⟨[.listening], 1, false⟩
      else if env.playRejects then ⟨[], 0, false⟩
      else ⟨[.listening], 1, false⟩
    let rejection : SpeakRes :=
      if env.playRejects then fallbackSpeak env else ⟨[], 0, false⟩
    ⟨.speaking :: (handlers.stateTrace ++ rejection.stateTrace),
     handlers.onEndCount + rejection.onEndCount,
     handlers.usedLocal || rejection.usedLocal⟩

/-- The inductive invariant of the audio subsystem, maintained by every
event from the initial state: ids occur at most once in each queue, the
queues are disjoint, only started ids circulate, a completion fires only
after playback and at most once, and the tracked audio is playing. -/
def AudioInv (s : AudioSys) : Prop :=
  (∀ u, s.pending.count u ≤ 1) ∧
  (∀ u, s.playing.count u ≤ 1) ∧
  (∀ u, u ∈ s.pending → u ∉ s.playing) ∧
  (∀ u, u ∈ s.pending → u ∈ s.started) ∧
  (∀ u, u ∈ s.playing → u ∈ s.started) ∧
  (∀ u, u ∈ s.pending → s.ends.count u = 0) ∧
  (∀ u, u ∈ s.playing → s.ends.count u = 0) ∧
  (∀ u, u ∉ s.started → s.ends.count u = 0) ∧
  (∀ u, s.ends.count u ≤ 1) ∧
  (∀ c, s.current = some c → c ∈ s.playing)

/-- The shape of the audio system under the one-at-a-time discipline:
either nothing is requested and at most the tracked audio plays, or
exactly one request is in flight and nothing plays. -/
def DiscInv (s : AudioSys) : Prop :=
  (s.pending = [] ∧ (s.playing = [] ∨ ∃ c, s.current = some c ∧ s.playing = [c])) ∨
  (∃ u, s.pending = [u] ∧ s.playing = [] ∧ s.current = none)

/-! ## Concrete fixtures used by witnesses and counterexamples -/

/-- A two-field demonstration form (its id is not in
`SCHEME_FIELD_ORDER`, so its own field list is used). -/
def demoScheme : Scheme := ⟨"demo", ["name", "village"]⟩

/-- A one-field demonstration form. -/
def oneFieldScheme : Scheme := ⟨"one-field", ["name"]⟩

/-- A session that is listening in collecting mode at step 0. -/
def listeningSys : Sys := { initSys with state := .listening }

/-- A session awaiting triage input. -/
def triageSys : Sys := { initSys with state := .triage }

/-! ## Basic lemmas about the session model -/

@[simp] theorem setStateG_step (s : Sys) (st : AIState) : (setStateG s st).step = s.step := rfl

@[simp] theorem setStateG_collected (s : Sys) (st : AIState) : (setStateG s st).collected = s.collected := rfl

@[simp] theorem setStateG_fieldUpdates (s : Sys) (st : AIState) : (setStateG s st).fieldUpdates = s.fieldUpdates := rfl

@[simp] theorem setStateG_schemeChanges (s : Sys) (st : AIState) : (setStateG s st).schemeChanges = s.schemeChanges := rfl

@[simp] theorem setStateG_saves (s : Sys) (st : AIState) : (setStateG s st).saves = s.saves := rfl

@[simp] theorem setStateG_downloads (s : Sys) (st : AIState) : (setStateG s st).downloads = s.downloads := rfl

@[simp] theorem setStateG_language (s : Sys) (st : AIState) : (setStateG s st).language = s.language := rfl

@[simp] theorem speakDone_step (s : Sys) (t : String) : (speakDone s t).step = s.step := by
  unfold speakDone; split <;> rfl

@[simp] theorem speakDone_collected (s : Sys) (t : String) : (speakDone s t).collected = s.collected := by
  unfold speakDone; split <;> rfl

@[simp] theorem speakDone_fieldUpdates (s : Sys) (t : String) : (speakDone s t).fieldUpdates = s.fieldUpdates := by
  unfold speakDone; split <;> rfl

@[simp] theorem speakDone_schemeChanges (s : Sys) (t : String) : (speakDone s t).schemeChanges = s.schemeChanges := by
  unfold speakDone; split <;> rfl

@[simp] theorem speakDone_saves (s : Sys) (t : String) : (speakDone s t).saves = s.saves := by
  unfold speakDone; split <;> rfl

@[simp] theorem speakDone_downloads (s : Sys) (t : String) : (speakDone s t).downloads = s.downloads := by
  unfold speakDone; split <;> rfl

@[simp] theorem speakDone_language (s : Sys) (t : String) : (speakDone s t).language = s.language := by
  unfold speakDone; split <;> rfl

@[simp] theorem askNextQuestion_step (sch : Option Scheme) (i : Nat) (s : Sys) :
    (askNextQuestion sch i s).step = s.step := by
  unfold askNextQuestion; split <;> simp

@[simp] theorem askNextQuestion_collected (sch : Option Scheme) (i : Nat) (s : Sys) :
    (askNextQuestion sch i s).collected = s.collected := by
  unfold askNextQuestion; split <;> simp

@[simp] theorem askNextQuestion_fieldUpdates (sch : Option Scheme) (i : Nat) (s : Sys) :
    (askNextQuestion sch i s).fieldUpdates = s.fieldUpdates := by
  unfold askNextQuestion; split <;> simp

@[simp] theorem askNextQuestion_schemeChanges (sch : Option Scheme) (i : Nat) (s : Sys) :
    (askNextQuestion sch i s).schemeChanges = s.schemeChanges := by
  unfold askNextQuestion; split <;> simp

@[simp] theorem askNextQuestion_saves (sch : Option Scheme) (i : Nat) (s : Sys) :
    (askNextQuestion sch i s).saves = s.saves := by
  unfold askNextQuestion; split <;> simp

@[simp] theorem askNextQuestion_downloads (sch : Option Scheme) (i : Nat) (s : Sys) :
    (askNextQuestion sch i s).downloads = s.downloads := by
  unfold askNextQuestion; split <;> simp

@[simp] theorem askNextQuestion_language (sch : Option Scheme) (i : Nat) (s : Sys) :
    (askNextQuestion sch i s).language = s.language := by
  unfold askNextQuestion; split <;> simp

/-- The full effect of a nonempty completed utterance. -/
theorem speakDone_eq (s : Sys) (text : String) (h : text ≠ "") :
    speakDone s text =
      { s with state := .listening,
               stateTrace := s.stateTrace ++ [.speaking, .listening],
               history := s.history ++ [("ai", text)],
               spoken := s.spoken ++ [text] } := by
  simp only [speakDone, setStateG, if_neg h]
  simp

/-! ### The spoken phrases are never empty -/

theorem append3_ne_empty (a b c : String) (h : 0 < a.length) : a ++ b ++ c ≠ "" := by
  intro he
  have h2 := congrArg String.length he
  rw [String.length_append, String.length_append, String.length_empty] at h2
  omega

theorem gotItPhrase_ne (lc v : String) : gotItPhrase lc v ≠ "" := by
  unfold gotItPhrase
  split_ifs <;> exact append3_ne_empty _ _ _ (by decide)

theorem retryPhrase_ne (lc : String) : retryPhrase lc ≠ "" := by
  unfold retryPhrase
  split_ifs <;> decide

theorem donePhrase_ne (lc : String) : donePhrase lc ≠ "" := by
  unfold donePhrase
  split_ifs <;> decide

theorem lookup_some_mem {β : Type} {k : String} {b : β} :
    ∀ {l : List (String × β)}, l.lookup k = some b → (k, b) ∈ l := by
  intro l
  induction l with
  | nil => intro h; simp [List.lookup] at h
  | cons p ps ih =>
    intro h
    obtain ⟨k', b'⟩ := p
    rw [List.lookup] at h
    by_cases hk : (k == k') = true
    · rw [hk] at h
      obtain rfl : b' = b := by simpa using h
      exact (eq_of_beq hk ▸ List.mem_cons_self _ _)
    · rw [Bool.not_eq_true] at hk
      rw [hk] at h
      exact List.mem_cons_of_mem _ (ih h)

theorem getQuestion_ne (lang fieldKey : String) : getQuestion lang fieldKey ≠ "" := by
  unfold getQuestion
  split
  · next q hq =>
    have hmem := lookup_some_mem hq
    have hall : ∀ p ∈ FIELD_QUESTIONS, p.2.hi ≠ "" ∧ p.2.gu ≠ "" ∧ p.2.en ≠ "" := by decide
    obtain ⟨h1, h2, h3⟩ := hall _ hmem
    dsimp only
    split_ifs <;> assumption
  · intro he
    have h2 := congrArg String.length he
    rw [String.length_append, String.length_empty] at h2
    have : 0 < ("Please tell me your " : String).length := by decide
    omega

/-! ## Lemmas about the field extractor -/

theorem extractValue_empty (ft : Option String) : extractValue "" ft = none := by
  simp [extractValue]

theorem takeDigits_spec :
    ∀ (n : Nat) (l d r : List Char), takeDigits n l = some (d, r) →
      d.length = n ∧ (∀ c ∈ d, c.isDigit) ∧ l = d ++ r := by
  intro n
  induction n with
  | zero =>
    intro l d r h
    simp [takeDigits] at h
    obtain ⟨rfl, rfl⟩ := h
    simp
  | succ m ih =>
    intro l d r h
    match l with
    | [] => simp [takeDigits] at h
    | c :: l' =>
      rw [takeDigits] at h
      by_cases hc : c.isDigit
      · rw [if_pos hc] at h
        match hrec : takeDigits m l' with
        | none => rw [hrec] at h; simp at h
        | some (d', r') =>
          rw [hrec] at h
          simp at h
          obtain ⟨rfl, rfl⟩ := h
          obtain ⟨h1, h2, h3⟩ := ih l' d' r' hrec
          refine ⟨by simp [h1], ?_, by simp [h3]⟩
          intro x hx
          rcases List.mem_cons.mp hx with rfl | hx
          · exact hc
          · exact h2 x hx
      · rw [if_neg hc] at h; simp at h

theorem findRun10_spec :
    ∀ (l d : List Char), findRun10 l = some d →
      d.length = 10 ∧ (∀ c ∈ d, c.isDigit) := by
  intro l
  induction l with
  | nil => intro d h; simp [findRun10] at h
  | cons c l' ih =>
    intro d h
    rw [findRun10] at h
    match hrec : takeDigits 10 (c :: l') with
    | some (d', r') =>
      rw [hrec] at h
      obtain rfl : d' = d := by simpa using h
      obtain ⟨h1, h2, _⟩ := takeDigits_spec 10 (c :: l') d' r' hrec
      exact ⟨h1, h2⟩
    | none =>
      rw [hrec] at h
      exact ih d h

theorem findRun10_digit :
    ∀ (l d : List Char), findRun10 l = some d → ∃ c ∈ l, c.isDigit := by
  intro l
  induction l with
  | nil => intro d h; simp [findRun10] at h
  | cons c l' ih =>
    intro d h
    rw [findRun10] at h
    match hrec : takeDigits 10 (c :: l') with
    | some (d', r') =>
      obtain ⟨h1, h2, h3⟩ := takeDigits_spec 10 (c :: l') d' r' hrec
      have hd : d' ≠ [] := by intro he; rw [he] at h1; simp at h1
      match d', h1 with
      | x :: d'', _ =>
        have hx : x = c := by
          have := h3
          simp at this
          exact this.1.symm
        exact ⟨c, List.mem_cons_self _ _, hx ▸ h2 x (List.mem_cons_self _ _)⟩
    | none =>
      rw [hrec] at h
      obtain ⟨x, hx, hdig⟩ := ih d h
      exact ⟨x, List.mem_cons_of_mem _ hx, hdig⟩

theorem skipOptSpace_spec (l : List Char) :
    (skipOptSpace l).1.length ≤ 1 ∧ (∀ c ∈ (skipOptSpace l).1, isSpaceC c) ∧
      l = (skipOptSpace l).1 ++ (skipOptSpace l).2 := by
  match l with
  | [] => simp [skipOptSpace]
  | c :: l' =>
    rw [skipOptSpace]
    by_cases hc : isSpaceC c
    · rw [if_pos hc]
      refine ⟨by simp, ?_, by simp⟩
      intro x hx
      obtain rfl : x = c := by simpa using hx
      exact hc
    · rw [if_neg hc]
      simp

theorem matchAadharAt_group :
    ∀ (l m : List Char), matchAadharAt l = some m → isAadharGroup m := by
  intro l m h
  rw [matchAadharAt] at h
  match h1 : takeDigits 4 l with
  | none => rw [h1] at h; simp at h
  | some (d1, r1) =>
    rw [h1] at h
    simp only at h
    match h2 : takeDigits 4 (skipOptSpace r1).2 with
    | none => rw [h2] at h; simp at h
    | some (d2, r2) =>
      rw [h2] at h
      simp only at h
      match h3 : takeDigits 4 (skipOptSpace r2).2 with
      | none => rw [h3] at h; simp at h
      | some (d3, r3) =>
        rw [h3] at h
        obtain rfl : d1 ++ (skipOptSpace r1).1 ++ d2 ++ (skipOptSpace r2).1 ++ d3 = m := by
          simpa using h
        obtain ⟨hl1, hd1, _⟩ := takeDigits_spec 4 l d1 r1 h1
        obtain ⟨hl2, hd2, _⟩ := takeDigits_spec 4 _ d2 r2 h2
        obtain ⟨hl3, hd3, _⟩ := takeDigits_spec 4 _ d3 r3 h3
        obtain ⟨hs1a, hs1b, _⟩ := skipOptSpace_spec r1
        obtain ⟨hs2a, hs2b, _⟩ := skipOptSpace_spec r2
        exact ⟨d1, (skipOptSpace r1).1, d2, (skipOptSpace r2).1, d3,
          by simp [List.append_assoc], hl1, hl2, hl3, hd1, hd2, hd3,
          hs1a, hs2a, hs1b, hs2b⟩

theorem findAadhar_group :
    ∀ (l m : List Char), findAadhar l = some m → isAadharGroup m := by
  intro l
  induction l with
  | nil => intro m h; simp [findAadhar] at h
  | cons c l' ih =>
    intro m h
    rw [findAadhar] at h
    match hm : matchAadharAt (c :: l') with
    | some m' =>
      rw [hm] at h
      obtain rfl : m' = m := by simpa using h
      exact matchAadharAt_group _ _ hm
    | none =>
      rw [hm] at h
      exact ih m h

/-- The extractor never produces the empty string (which explains why the
`value.length >= 1` re-check in `processResponse` never fires). -/
theorem extractValue_pos (t : String) (ft : Option String) (v : String)
    (h : extractValue t ft = some v) : 1 ≤ v.length := by
  unfold extractValue at h
  by_cases ht : t = ""
  · rw [if_pos ht] at h; simp at h
  rw [if_neg ht] at h
  by_cases hm : ft = some "mobile"
  · rw [if_pos hm] at h
    match hr : findRun10 t.toList with
    | some r =>
      rw [hr] at h
      obtain rfl : String.mk r = v := by simpa using h
      have := (findRun10_spec _ _ hr).1
      simp [String.length, this]
    | none =>
      rw [hr] at h
      simp only at h
      by_cases hd : (t.toList.filter Char.isDigit).take 10 = []
      · rw [if_pos hd] at h; simp at h
      · rw [if_neg hd] at h
        obtain rfl : String.mk ((t.toList.filter Char.isDigit).take 10) = v := by
          simpa using h
        have : 0 < ((t.toList.filter Char.isDigit).take 10).length :=
          List.length_pos.mpr hd
        simpa [String.length] using this
  rw [if_neg hm] at h
  by_cases ha : ft = some "aadhar"
  · rw [if_pos ha] at h
    match hr : findAadhar t.toList with
    | some m =>
      rw [hr] at h
      obtain rfl : String.mk m = v := by simpa using h
      obtain ⟨d1, s1, d2, s2, d3, hm', hl1, _⟩ := findAadhar_group _ _ hr
      have h4 : 4 ≤ m.length := by
        rw [hm']
        simp only [List.length_append, hl1]
        omega
      simp [String.length]
      omega
    | none =>
      rw [hr] at h
      simp only at h
      by_cases hd : (t.toList.filter Char.isDigit).take 12 = []
      · rw [if_pos hd] at h; simp at h
      · rw [if_neg hd] at h
        obtain rfl : String.mk ((t.toList.filter Char.isDigit).take 12) = v := by
          simpa using h
        have : 0 < ((t.toList.filter Char.isDigit).take 12).length :=
          List.length_pos.mpr hd
        simpa [String.length] using this
  rw [if_neg ha] at h
  simp only at h
  by_cases hrej : isRejected (cleanGeneric t) || (cleanGeneric t).length < 2
  · rw [if_pos hrej] at h; simp at h
  · rw [if_neg hrej] at h
    obtain rfl : cleanGeneric t = v := by simpa using h
    simp at hrej
    obtain ⟨-, hlen⟩ := hrej
    omega

/-- The generic-text branch of `extractValue`, for any field type other
than mobile and aadhar. -/
theorem extractValue_generic (t : String) (ft : Option String)
    (h1 : ft ≠ some "mobile") (h2 : ft ≠ some "aadhar") :
    extractValue t ft =
      if t = "" then none
      else if isRejected (cleanGeneric t) || (cleanGeneric t).length < 2 then none
      else some (cleanGeneric t) := by
  unfold extractValue
  by_cases ht : t = ""
  · simp [ht]
  · rw [if_neg ht, if_neg h1, if_neg h2, if_neg ht]

/-! ## Characterization of `processResponse` -/

/-- Triage turn on network failure: the retry phrase is spoken, nothing
else changes, and the session awaits input again. -/
theorem processResponse_triage_error (scheme : Option Scheme) (s : Sys)
    (t : String) (ht : t ≠ "") (hstate : s.state = .triage ∨ s.state = .idle) :
    processResponse scheme (.error ()) s t =
      { s with state := .listening,
               stateTrace := s.stateTrace ++ [.processing, .speaking, .listening],
               history := s.history ++ [("user", t),
                 ("ai", retryPhrase (langCodeOf s.language))],
               spoken := s.spoken ++ [retryPhrase (langCodeOf s.language)] } := by
  unfold processResponse
  rw [if_neg ht]
  dsimp only [setStateG]
  rw [if_pos hstate]
  rw [speakDone_eq _ _ (retryPhrase_ne _)]
  simp

/-- Collecting turn, successful extraction, further fields remain: the
value is stored, the field update is emitted, the step advances by one,
the acknowledgment and the next question are spoken. -/
theorem processResponse_success_mid (scheme : Option Scheme)
    (recommend : Except Unit RecommendResp) (s : Sys) (t key v : String)
    (ht : t ≠ "")
    (hstate : ¬(s.state = .triage ∨ s.state = .idle))
    (hkey : (getFieldOrder scheme).get? s.step = some key)
    (hv : extractValue t ((getFieldOrder scheme).get? s.step) = some v)
    (hlt : s.step + 1 < (getFieldOrder scheme).length) :
    ∃ nextKey, (getFieldOrder scheme).get? (s.step + 1) = some nextKey ∧
    processResponse scheme recommend s t =
      { s with state := .listening,
               step := s.step + 1,
               stateTrace := s.stateTrace ++
                 [.processing, .speaking, .listening, .speaking, .listening],
               history := s.history ++ [("user", t),
                 ("ai", gotItPhrase (langCodeOf s.language) v),
                 ("ai", getQuestion s.language nextKey)],
               spoken := s.spoken ++ [gotItPhrase (langCodeOf s.language) v,
                 getQuestion s.language nextKey],
               collected := upsert s.collected key v,
               fieldUpdates := s.fieldUpdates ++ [(key, v)] } := by
  obtain ⟨nextKey, hnext⟩ : ∃ nk, (getFieldOrder scheme).get? (s.step + 1) = some nk :=
    ⟨_, List.get?_eq_get hlt⟩
  refine ⟨nextKey, hnext, ?_⟩
  have hvpos : 1 ≤ v.length := extractValue_pos _ _ _ hv
  unfold processResponse
  rw [if_neg ht]
  dsimp only [setStateG]
  rw [if_neg hstate]
  rw [hv]
  dsimp only
  rw [if_pos hvpos, if_pos hlt]
  unfold askNextQuestion
  rw [speakDone_eq _ _ (gotItPhrase_ne _ _)]
  dsimp only
  rw [hnext]
  dsimp only
  rw [speakDone_eq _ _ (getQuestion_ne _ _)]
  have hkey2 : (getFieldOrder scheme)[s.step]? = some key := by
    rw [← List.get?_eq_getElem?]; exact hkey
  simp [hkey2]

/-- Collecting turn, successful extraction of the final field: the value
is stored, the state is assigned `completed`, the completion message is
spoken (whose end handler assigns `listening`), the save request fires and
the download trigger is registered; the step does not change. -/
theorem processResponse_success_last (scheme : Option Scheme)
    (recommend : Except Unit RecommendResp) (s : Sys) (t key v : String)
    (ht : t ≠ "")
    (hstate : ¬(s.state = .triage ∨ s.state = .idle))
    (hkey : (getFieldOrder scheme).get? s.step = some key)
    (hv : extractValue t ((getFieldOrder scheme).get? s.step) = some v)
    (hge : ¬(s.step + 1 < (getFieldOrder scheme).length)) :
    processResponse scheme recommend s t =
      { s with state := .listening,
               stateTrace := s.stateTrace ++
                 [.processing, .completed, .speaking, .listening],
               history := s.history ++ [("user", t),
                 ("ai", donePhrase (langCodeOf s.language))],
               spoken := s.spoken ++ [donePhrase (langCodeOf s.language)],
               collected := upsert s.collected key v,
               fieldUpdates := s.fieldUpdates ++ [(key, v)],
               saves := s.saves + 1,
               downloads := s.downloads + 1 } := by
  have hvpos : 1 ≤ v.length := extractValue_pos _ _ _ hv
  unfold processResponse
  rw [if_neg ht]
  dsimp only [setStateG]
  rw [if_neg hstate]
  rw [hv]
  dsimp only
  rw [if_pos hvpos, if_neg hge]
  rw [speakDone_eq _ _ (donePhrase_ne _)]
  have hkey2 : (getFieldOrder scheme)[s.step]? = some key := by
    rw [← List.get?_eq_getElem?]; exact hkey
  simp [hkey2]

/-- Collecting turn, failed extraction: the retry phrase and the question
of the unchanged step are spoken; step, collected data and side effects
are untouched. -/
theorem processResponse_retry (scheme : Option Scheme)
    (recommend : Except Unit RecommendResp) (s : Sys) (t key : String)
    (ht : t ≠ "")
    (hstate : ¬(s.state = .triage ∨ s.state = .idle))
    (hkey : (getFieldOrder scheme).get? s.step = some key)
    (hnone : extractValue t ((getFieldOrder scheme).get? s.step) = none) :
    processResponse scheme recommend s t =
      { s with state := .listening,
               stateTrace := s.stateTrace ++
                 [.processing, .speaking, .listening, .speaking, .listening],
               history := s.history ++ [("user", t),
                 ("ai", retryPhrase (langCodeOf s.language)),
                 ("ai", getQuestion s.language key)],
               spoken := s.spoken ++ [retryPhrase (langCodeOf s.language),
                 getQuestion s.language key] } := by
  unfold processResponse
  rw [if_neg ht]
  dsimp only [setStateG]
  rw [if_neg hstate]
  rw [hnone]
  dsimp only
  unfold askNextQuestion
  rw [speakDone_eq _ _ (retryPhrase_ne _)]
  dsimp only
  rw [hkey]
  dsimp only
  rw [speakDone_eq _ _ (getQuestion_ne _ _)]
  simp

/-! ## Multi-turn runs in collecting mode -/

theorem upsert_append (l : List (String × String)) (key v : String)
    (h : key ∉ l.map Prod.fst) : upsert l key v = l ++ [(key, v)] := by
  unfold upsert
  rw [if_neg]
  intro hc
  obtain ⟨p, hp, hpk⟩ := List.any_eq_true.mp hc
  exact h (List.mem_map.mpr ⟨p, hp, by simpa using hpk⟩)

/-- After `startConversation` with a scheme whose field order is nonempty,
the session is listening at step 0 with nothing collected and no side
effects added. -/
theorem startConversation_spec (scheme : Scheme) (greeting lang : String) (s : Sys)
    (hf : 0 < (getFieldOrder (some scheme)).length) :
    (startConversation (some scheme) greeting lang s).state = .listening ∧
    (startConversation (some scheme) greeting lang s).step = 0 ∧
    (startConversation (some scheme) greeting lang s).collected = [] ∧
    (startConversation (some scheme) greeting lang s).saves = s.saves ∧
    (startConversation (some scheme) greeting lang s).downloads = s.downloads ∧
    (startConversation (some scheme) greeting lang s).fieldUpdates = s.fieldUpdates ∧
    (startConversation (some scheme) greeting lang s).language = lang := by
  obtain ⟨k0, hk0⟩ : ∃ k, (getFieldOrder (some scheme)).get? 0 = some k :=
    ⟨_, List.get?_eq_get hf⟩
  unfold startConversation
  dsimp only
  unfold askNextQuestion
  rw [hk0]
  dsimp only
  rw [speakDone_eq _ _ (getQuestion_ne _ _)]
  simp

/-- Folding `processResponse` over transcripts that answer every remaining
field of the form in order, starting from a listening session: the
remaining (field, value) pairs are appended to the collected data and to
the emitted field updates in field order, exactly one save request and one
download trigger are issued, `completed` is assigned to the state variable
along the way, and the final state variable reads `listening`. -/
theorem runCollect (scheme : Option Scheme) (recommend : Except Unit RecommendResp) :
    ∀ (ts vs : List String) (s : Sys),
      s.state = .listening →
      ts ≠ [] →
      s.step + ts.length = (getFieldOrder scheme).length →
      vs.length = ts.length →
      (∀ i (h1 : i < ts.length),
        extractValue (ts.get ⟨i, h1⟩) ((getFieldOrder scheme).get? (s.step + i)) = vs.get? i) →
      (∀ j (hj : j < (getFieldOrder scheme).length), s.step ≤ j →
        (getFieldOrder scheme).get ⟨j, hj⟩ ∉ s.collected.map Prod.fst) →
      (getFieldOrder scheme).Nodup →
      (ts.foldl (processResponse scheme recommend) s).collected =
          s.collected ++ ((getFieldOrder scheme).drop s.step).zip vs ∧
      (ts.foldl (processResponse scheme recommend) s).fieldUpdates =
          s.fieldUpdates ++ ((getFieldOrder scheme).drop s.step).zip vs ∧
      (ts.foldl (processResponse scheme recommend) s).saves = s.saves + 1 ∧
      (ts.foldl (processResponse scheme recommend) s).downloads = s.downloads + 1 ∧
      (ts.foldl (processResponse scheme recommend) s).state = .listening ∧
      AIState.completed ∈ (ts.foldl (processResponse scheme recommend) s).stateTrace := by
  intro ts
  induction ts with
  | nil => intro vs s _ hne; exact absurd rfl hne
  | cons t ts' ih =>
    intro vs s hstate hne hlen hvlen hext hfresh hnodup
    match vs, hvlen with
    | v :: vs', hvlen =>
    have hstep : s.step < (getFieldOrder scheme).length := by
      simp at hlen; omega
    have hkey : (getFieldOrder scheme).get? s.step =
        some ((getFieldOrder scheme).get ⟨s.step, hstep⟩) := List.get?_eq_get hstep
    set key := (getFieldOrder scheme).get ⟨s.step, hstep⟩ with hkeydef
    have hv : extractValue t ((getFieldOrder scheme).get? s.step) = some v := by
      have h0 := hext 0 (by simp)
      simpa using h0
    have ht : t ≠ "" := by
      intro he
      rw [he, extractValue_empty] at hv
      exact Option.noConfusion hv
    have hstate' : ¬(s.state = .triage ∨ s.state = .idle) := by
      rw [hstate]; intro hc; rcases hc with hc | hc <;> exact AIState.noConfusion hc
    have hfreshkey : key ∉ s.collected.map Prod.fst := hfresh s.step hstep le_rfl
    have hdrop : (getFieldOrder scheme).drop s.step =
        key :: (getFieldOrder scheme).drop (s.step + 1) := by
      rw [List.drop_eq_getElem_cons hstep]
      simp [hkeydef, List.get_eq_getElem]
    cases ts' with
    | nil =>
      have hge : ¬(s.step + 1 < (getFieldOrder scheme).length) := by
        simp at hlen; omega
      have heq := processResponse_success_last scheme recommend s t key v ht hstate' hkey hv hge
      have hvs' : vs' = [] := by
        have h2 := hvlen; simp at h2; exact h2
      subst hvs'
      have hdrop1 : (getFieldOrder scheme).drop (s.step + 1) = [] :=
        List.drop_eq_nil_of_le (by omega)
      simp only [List.foldl_cons, List.foldl_nil, heq]
      rw [upsert_append _ _ _ hfreshkey]
      simp [hdrop, hdrop1]
    | cons t2 ts'' =>
      have hlt : s.step + 1 < (getFieldOrder scheme).length := by
        simp at hlen; omega
      obtain ⟨nextKey, hnext, heq⟩ :=
        processResponse_success_mid scheme recommend s t key v ht hstate' hkey hv hlt
      rw [List.foldl_cons, heq]
      set s' : Sys :=
        { s with state := .listening,
                 step := s.step + 1,
                 stateTrace := s.stateTrace ++
                   [.processing, .speaking, .listening, .speaking, .listening],
                 history := s.history ++ [("user", t),
                   ("ai", gotItPhrase (langCodeOf s.language) v),
                   ("ai", getQuestion s.language nextKey)],
                 spoken := s.spoken ++ [gotItPhrase (langCodeOf s.language) v,
                   getQuestion s.language nextKey],
                 collected := upsert s.collected key v,
                 fieldUpdates := s.fieldUpdates ++ [(key, v)] } with hsdef
      have hsstep : s'.step = s.step + 1 := by rw [hsdef]
      have hscollected : s'.collected = s.collected ++ [(key, v)] := by
        rw [hsdef]; dsimp only; rw [upsert_append _ _ _ hfreshkey]
      have hstate2 : s'.state = .listening := by rw [hsdef]
      have hlen' : s'.step + (t2 :: ts'').length = (getFieldOrder scheme).length := by
        rw [hsstep]; simp at hlen ⊢; omega
      have hvlen' : vs'.length = (t2 :: ts'').length := by simpa using hvlen
      have hext' : ∀ i (h1 : i < (t2 :: ts'').length),
          extractValue ((t2 :: ts'').get ⟨i, h1⟩)
            ((getFieldOrder scheme).get? (s'.step + i)) = vs'.get? i := by
        intro i h1
        have h2 := hext (i + 1) (by simpa using Nat.succ_lt_succ h1)
        have harg : s.step + (i + 1) = s'.step + i := by rw [hsstep]; omega
        rw [harg] at h2
        simpa using h2
      have hfresh' : ∀ j (hj : j < (getFieldOrder scheme).length), s'.step ≤ j →
          (getFieldOrder scheme).get ⟨j, hj⟩ ∉ s'.collected.map Prod.fst := by
        intro j hj hle
        rw [hscollected, List.map_append, List.mem_append]
        rw [hsstep] at hle
        intro hc
        rcases hc with hc | hc
        · exact hfresh j hj (by omega) hc
        · have hkeyeq : (getFieldOrder scheme).get ⟨j, hj⟩ = key := by simpa using hc
          have hji := (@List.Nodup.get_inj_iff _ _ hnodup ⟨j, hj⟩ ⟨s.step, hstep⟩).mp hkeyeq
          have : j = s.step := by simpa using hji
          omega
      obtain ⟨ih1, ih2, ih3, ih4, ih5, ih6⟩ :=
        ih vs' s' hstate2 (by simp) hlen' hvlen' hext' hfresh' hnodup
      refine ⟨?_, ?_, ?_, ?_, ih5, ih6⟩
      · rw [ih1, hscollected, hsstep, hdrop]
        simp [List.zip_cons_cons]
      · rw [ih2, hsstep, hdrop]
        have : s'.fieldUpdates = s.fieldUpdates ++ [(key, v)] := by rw [hsdef]
        rw [this]
        simp [List.zip_cons_cons]
      · rw [ih3]
      · rw [ih4]

/-! ## Claim theorems -/

/-- C2 (amended): if, starting from `startConversation` with a selected
form of N (> 0) distinct fields, all N fields are answered in sequence
with transcripts from which a value is extracted, then at the end
`collectedFields` contains exactly N entries keyed by the form's field
order, exactly one save-form request and exactly one download trigger are
issued, and the state variable is assigned `Completed` when the last field
is stored — but the completion utterance's end handler then assigns
`Listening`, so the final resting value of the state variable is
`Listening`, not `Completed`. -/
theorem C2_amended (sch : Scheme) (greeting lang : String)
    (recommend : Except Unit RecommendResp) (ts vs : List String)
    (hpos : 0 < ts.length)
    (hlen : ts.length = (getFieldOrder (some sch)).length)
    (hvlen : vs.length = ts.length)
    (hnodup : (getFieldOrder (some sch)).Nodup)
    (hext : ∀ i (h1 : i < ts.length),
      extractValue (ts.get ⟨i, h1⟩) ((getFieldOrder (some sch)).get? i) = vs.get? i) :
    (ts.foldl (processResponse (some sch) recommend)
        (startConversation (some sch) greeting lang initSys)).collected =
      (getFieldOrder (some sch)).zip vs ∧
    (ts.foldl (processResponse (some sch) recommend)
        (startConversation (some sch) greeting lang initSys)).collected.map Prod.fst =
      getFieldOrder (some sch) ∧
    (ts.foldl (processResponse (some sch) recommend)
        (startConversation (some sch) greeting lang initSys)).collected.length =
      (getFieldOrder (some sch)).length ∧
    (ts.foldl (processResponse (some sch) recommend)
        (startConversation (some sch) greeting lang initSys)).saves = 1 ∧
    (ts.foldl (processResponse (some sch) recommend)
        (startConversation (some sch) greeting lang initSys)).downloads = 1 ∧
    AIState.completed ∈ (ts.foldl (processResponse (some sch) recommend)
        (startConversation (some sch) greeting lang initSys)).stateTrace ∧
    (ts.foldl (processResponse (some sch) recommend)
        (startConversation (some sch) greeting lang initSys)).state = .listening := by
  obtain ⟨h1, h2, h3, h4, h5, h6, h7⟩ :=
    startConversation_spec sch greeting lang initSys (by omega)
  obtain ⟨r1, r2, r3, r4, r5, r6⟩ :=
    runCollect (some sch) recommend ts vs _ h1
      (by intro h; rw [h] at hpos; simp at hpos)
      (by rw [h2]; omega)
      hvlen
      (by intro i hi; simpa [h2] using hext i hi)
      (by intro j hj _; simp [h3])
      hnodup
  rw [h2, h3] at r1
  simp only [List.drop_zero, List.nil_append] at r1
  have hfle : (getFieldOrder (some sch)).length ≤ vs.length := by omega
  refine ⟨r1, ?_, ?_, ?_, ?_, r6, r5⟩
  · rw [r1]
    exact List.map_fst_zip _ _ hfle
  · rw [r1, List.length_zip]
    omega
  · rw [r3, h4]; rfl
  · rw [r4, h5]; rfl

/-- C2 counterexample to the claim as stated: a complete, fully successful
two-field run (every premise of the claim holds) whose final state
variable reads `listening`, not `completed`. -/
theorem C2_counterexample :
    extractValue "my name is Rajesh Kumar" (some "name") = some "Rajesh Kumar" ∧
    extractValue "Anand" (some "village") = some "Anand" ∧
    (["my name is Rajesh Kumar", "Anand"].foldl
        (processResponse (some demoScheme) (.error ()))
        (startConversation (some demoScheme) "Namaste" "en-IN" initSys)).collected =
      [("name", "Rajesh Kumar"), ("village", "Anand")] ∧
    (["my name is Rajesh Kumar", "Anand"].foldl
        (processResponse (some demoScheme) (.error ()))
        (startConversation (some demoScheme) "Namaste" "en-IN" initSys)).saves = 1 ∧
    (["my name is Rajesh Kumar", "Anand"].foldl
        (processResponse (some demoScheme) (.error ()))
        (startConversation (some demoScheme) "Namaste" "en-IN" initSys)).downloads = 1 ∧
    (["my name is Rajesh Kumar", "Anand"].foldl
        (processResponse (some demoScheme) (.error ()))
        (startConversation (some demoScheme) "Namaste" "en-IN" initSys)).state =
      AIState.listening ∧
    AIState.listening ≠ AIState.completed := by
  decide

/-- C2 witness: the amended claim applied to the concrete two-field run. -/
theorem C2_witness :
    (["my name is Rajesh Kumar", "Anand"].foldl
        (processResponse (some demoScheme) (Except.error ()))
        (startConversation (some demoScheme) "Namaste" "en-IN" initSys)).collected =
      (getFieldOrder (some demoScheme)).zip ["Rajesh Kumar", "Anand"] ∧
    (["my name is Rajesh Kumar", "Anand"].foldl
        (processResponse (some demoScheme) (Except.error ()))
        (startConversation (some demoScheme) "Namaste" "en-IN" initSys)).collected.map Prod.fst =
      getFieldOrder (some demoScheme) ∧
    (["my name is Rajesh Kumar", "Anand"].foldl
        (processResponse (some demoScheme) (Except.error ()))
        (startConversation (some demoScheme) "Namaste" "en-IN" initSys)).collected.length =
      (getFieldOrder (some demoScheme)).length ∧
    (["my name is Rajesh Kumar", "Anand"].foldl
        (processResponse (some demoScheme) (Except.error ()))
        (startConversation (some demoScheme) "Namaste" "en-IN" initSys)).saves = 1 ∧
    (["my name is Rajesh Kumar", "Anand"].foldl
        (processResponse (some demoScheme) (Except.error ()))
        (startConversation (some demoScheme) "Namaste" "en-IN" initSys)).downloads = 1 ∧
    AIState.completed ∈ (["my name is Rajesh Kumar", "Anand"].foldl
        (processResponse (some demoScheme) (Except.error ()))
        (startConversation (some demoScheme) "Namaste" "en-IN" initSys)).stateTrace ∧
    (["my name is Rajesh Kumar", "Anand"].foldl
        (processResponse (some demoScheme) (Except.error ()))
        (startConversation (some demoScheme) "Namaste" "en-IN" initSys)).state = .listening :=
  C2_amended demoScheme "Namaste" "en-IN" (Except.error ())
    ["my name is Rajesh Kumar", "Anand"] ["Rajesh Kumar", "Anand"]
    (by decide) (by decide) (by decide) (by decide) (by decide)

/-- C3 (confirmed): in collecting mode, when no value is extracted from
the transcript for the current field, the controller speaks the retry
prompt and then re-asks the question of the same step: the step index,
the collected data and the emitted field updates are unchanged.  In
particular the transcript "stop" extracts to no match on every
generic-text field (any field type other than mobile and aadhar). -/
theorem C3_retry_loop (scheme : Option Scheme) (recommend : Except Unit RecommendResp)
    (s : Sys) (t key : String)
    (hstate : ¬(s.state = .triage ∨ s.state = .idle))
    (ht : t ≠ "")
    (hkey : (getFieldOrder scheme).get? s.step = some key)
    (hnone : extractValue t ((getFieldOrder scheme).get? s.step) = none) :
    (processResponse scheme recommend s t).step = s.step ∧
    (processResponse scheme recommend s t).collected = s.collected ∧
    (processResponse scheme recommend s t).fieldUpdates = s.fieldUpdates ∧
    (processResponse scheme recommend s t).spoken =
      s.spoken ++ [retryPhrase (langCodeOf s.language), getQuestion s.language key] ∧
    (∀ k : String, k ≠ "mobile" → k ≠ "aadhar" → extractValue "stop" (some k) = none) := by
  rw [processResponse_retry scheme recommend s t key ht hstate hkey hnone]
  refine ⟨rfl, rfl, rfl, rfl, ?_⟩
  intro k hk1 hk2
  rw [extractValue_generic _ _ (by simpa using hk1) (by simpa using hk2)]
  decide

/-- C3 witness: the retry self-loop at a concrete listening session with
the transcript "stop". -/
theorem C3_witness :
    (processResponse (some demoScheme) (Except.error ()) listeningSys "stop").step =
      listeningSys.step ∧
    (processResponse (some demoScheme) (Except.error ()) listeningSys "stop").collected =
      listeningSys.collected ∧
    (processResponse (some demoScheme) (Except.error ()) listeningSys "stop").fieldUpdates =
      listeningSys.fieldUpdates ∧
    (processResponse (some demoScheme) (Except.error ()) listeningSys "stop").spoken =
      listeningSys.spoken ++ [retryPhrase (langCodeOf listeningSys.language),
        getQuestion listeningSys.language "name"] ∧
    (∀ k : String, k ≠ "mobile" → k ≠ "aadhar" → extractValue "stop" (some k) = none) :=
  C3_retry_loop (some demoScheme) (Except.error ()) listeningSys "stop" "name"
    (by decide) (by decide) (by decide) (by decide)

/-- C7 (confirmed): a network failure of the `/recommend-scheme` request
in triage mode results in the retry phrase being spoken and the session
listening for input again; no scheme change is emitted (the selected form
stays unset), nothing is collected, and the step is unchanged — the error
is absorbed, not propagated. -/
theorem C7_triage_error (scheme : Option Scheme) (s : Sys) (t : String)
    (ht : t ≠ "") (hstate : s.state = .triage) :
    (processResponse scheme (.error ()) s t).spoken =
      s.spoken ++ [retryPhrase (langCodeOf s.language)] ∧
    (processResponse scheme (.error ()) s t).schemeChanges = s.schemeChanges ∧
    (processResponse scheme (.error ()) s t).state = .listening ∧
    (processResponse scheme (.error ()) s t).collected = s.collected ∧
    (processResponse scheme (.error ()) s t).step = s.step := by
  rw [processResponse_triage_error scheme s t ht (Or.inl hstate)]
  exact ⟨rfl, rfl, rfl, rfl, rfl⟩

/-- C7 witness: the triage-failure behavior at a concrete session. -/
theorem C7_witness :
    (processResponse none (Except.error ()) triageSys "my crops failed").spoken =
      triageSys.spoken ++ [retryPhrase (langCodeOf triageSys.language)] ∧
    (processResponse none (Except.error ()) triageSys "my crops failed").schemeChanges =
      triageSys.schemeChanges ∧
    (processResponse none (Except.error ()) triageSys "my crops failed").state = .listening ∧
    (processResponse none (Except.error ()) triageSys "my crops failed").collected =
      triageSys.collected ∧
    (processResponse none (Except.error ()) triageSys "my crops failed").step =
      triageSys.step :=
  C7_triage_error none triageSys "my crops failed" (by decide) (by decide)

/-- C9 (confirmed): scenario A — the transcript "my name is Rajesh Kumar"
on the generic-text field `name` extracts exactly "Rajesh Kumar" (the
extractor takes no language argument, so this holds for a session in any
language, including en). -/
theorem C9_scenario_A :
    extractValue "my name is Rajesh Kumar" (some "name") = some "Rajesh Kumar" := by
  decide

/-- C10 (confirmed): the outcome of extraction — and with it the step,
the collected data, the emitted field updates and the emitted scheme
changes of a `processResponse` turn — depends only on the transcript and
the field type, never on the session's language tag (the language only
selects the wording of what is spoken).  `extractValue` itself takes no
language parameter and strips one fixed filler-word list. -/
theorem C10_language_noninterference (scheme : Option Scheme)
    (recommend : Except Unit RecommendResp) (s : Sys) (t l1 l2 : String) :
    (processResponse scheme recommend { s with language := l1 } t).step =
      (processResponse scheme recommend { s with language := l2 } t).step ∧
    (processResponse scheme recommend { s with language := l1 } t).collected =
      (processResponse scheme recommend { s with language := l2 } t).collected ∧
    (processResponse scheme recommend { s with language := l1 } t).fieldUpdates =
      (processResponse scheme recommend { s with language := l2 } t).fieldUpdates ∧
    (processResponse scheme recommend { s with language := l1 } t).schemeChanges =
      (processResponse scheme recommend { s with language := l2 } t).schemeChanges := by
  unfold processResponse
  by_cases ht : t = ""
  · simp [ht]
  · rw [if_neg ht, if_neg ht]
    dsimp only [setStateG]
    by_cases hst : s.state = .triage ∨ s.state = .idle
    · rw [if_pos hst, if_pos hst]
      cases recommend with
      | ok data =>
        by_cases hsucc : data.success <;> simp [hsucc]
      | error e => simp
    · rw [if_neg hst, if_neg hst]
      cases hE : extractValue t ((getFieldOrder scheme).get? s.step) with
      | some v =>
        simp only [hE]
        by_cases hv : 1 ≤ v.length
        · rw [if_pos hv, if_pos hv]
          by_cases hlt : s.step + 1 < (getFieldOrder scheme).length
          · rw [if_pos hlt, if_pos hlt]; simp
          · rw [if_neg hlt, if_neg hlt]; simp
        · rw [if_neg hv, if_neg hv]; simp
      | none => simp only [hE]; simp

/-- One `processResponse` call never decreases the step index, in any
state. -/
theorem processResponse_step_mono (scheme : Option Scheme)
    (recommend : Except Unit RecommendResp) (s : Sys) (t : String) :
    s.step ≤ (processResponse scheme recommend s t).step := by
  unfold processResponse
  split
  · exact le_refl _
  · dsimp only [setStateG]
    split
    · split
      · split <;> simp
      · simp
    · split
      · split
        · split
          · simp
          · simp
        · simp
      · simp

/-- The exact step arithmetic of one collecting-mode `processResponse`
call: plus one on a successful extraction with fields remaining, unchanged
otherwise. -/
theorem processResponse_step_eq (scheme : Option Scheme)
    (recommend : Except Unit RecommendResp) (s : Sys) (t : String)
    (hstate : ¬(s.state = .triage ∨ s.state = .idle)) (ht : t ≠ "") :
    (processResponse scheme recommend s t).step =
      match extractValue t ((getFieldOrder scheme).get? s.step) with
      | some _ => if s.step + 1 < (getFieldOrder scheme).length then s.step + 1 else s.step
      | none => s.step := by
  unfold processResponse
  rw [if_neg ht]
  dsimp only [setStateG]
  rw [if_neg hstate]
  cases hE : extractValue t ((getFieldOrder scheme).get? s.step) with
  | none => simp
  | some v =>
    dsimp only
    rw [if_pos (extractValue_pos _ _ _ hE)]
    by_cases hlt : s.step + 1 < (getFieldOrder scheme).length
    · rw [if_pos hlt, if_pos hlt]
      simp
    · rw [if_neg hlt, if_neg hlt]
      simp

/-- `startConversation` always resets the step index to 0. -/
theorem startConversation_step (scheme : Option Scheme) (greeting lang : String)
    (s : Sys) : (startConversation scheme greeting lang s).step = 0 := by
  unfold startConversation
  cases scheme <;> simp

/-- C4 (amended): the step index never decreases across any sequence of
`processResponse` calls; in collecting mode a single call increases it by
exactly one when extraction succeeds and further fields remain, and leaves
it unchanged on a failed extraction and also on the final field's
successful extraction (where the controller completes the session
instead); only `startConversation` resets it to 0. -/
theorem C4_amended (scheme : Option Scheme) (recommend : Except Unit RecommendResp)
    (s : Sys) (t greeting lang : String)
    (hstate : ¬(s.state = .triage ∨ s.state = .idle)) (ht : t ≠ "") :
    s.step ≤ (processResponse scheme recommend s t).step ∧
    (∀ ts : List String, s.step ≤ (ts.foldl (processResponse scheme recommend) s).step) ∧
    (∀ v, extractValue t ((getFieldOrder scheme).get? s.step) = some v →
      s.step + 1 < (getFieldOrder scheme).length →
      (processResponse scheme recommend s t).step = s.step + 1) ∧
    (∀ v, extractValue t ((getFieldOrder scheme).get? s.step) = some v →
      ¬(s.step + 1 < (getFieldOrder scheme).length) →
      (processResponse scheme recommend s t).step = s.step) ∧
    (extractValue t ((getFieldOrder scheme).get? s.step) = none →
      (processResponse scheme recommend s t).step = s.step) ∧
    (startConversation scheme greeting lang s).step = 0 := by
  have hmono : ∀ (ts : List String) (s' : Sys),
      s'.step ≤ (ts.foldl (processResponse scheme recommend) s').step := by
    intro ts
    induction ts with
    | nil => intro s'; simp
    | cons t' ts' ih =>
      intro s'
      rw [List.foldl_cons]
      exact le_trans (processResponse_step_mono scheme recommend s' t') (ih _)
  refine ⟨processResponse_step_mono scheme recommend s t, fun ts => hmono ts s, ?_, ?_, ?_,
    startConversation_step scheme greeting lang s⟩
  · intro v hv hlt
    rw [processResponse_step_eq scheme recommend s t hstate ht, hv]
    exact if_pos hlt
  · intro v hv hge
    rw [processResponse_step_eq scheme recommend s t hstate ht, hv]
    exact if_neg hge
  · intro hnone
    rw [processResponse_step_eq scheme recommend s t hstate ht, hnone]

/-- C4 counterexample to the claim as stated: on a one-field form,
extraction succeeds for the (final) field, yet the step index stays 0
instead of increasing by one — the controller completes without
advancing. -/
theorem C4_counterexample :
    extractValue "my name is Rajesh Kumar" (some "name") = some "Rajesh Kumar" ∧
    (processResponse (some oneFieldScheme) (Except.error ())
        listeningSys "my name is Rajesh Kumar").step = 0 ∧
    ¬((processResponse (some oneFieldScheme) (Except.error ())
        listeningSys "my name is Rajesh Kumar").step = 0 + 1) := by
  decide

/-- C4 witness: the amended step arithmetic at a concrete two-field
session — extraction succeeds with a field remaining and the step advances
by exactly one. -/
theorem C4_witness :
    (processResponse (some demoScheme) (Except.error ())
        listeningSys "my name is Rajesh Kumar").step = listeningSys.step + 1 :=
  (C4_amended (some demoScheme) (Except.error ()) listeningSys
      "my name is Rajesh Kumar" "Namaste" "en-IN" (by decide) (by decide)).2.2.1
    "Rajesh Kumar" (by decide) (by decide)

/-- C8 (confirmed): every word of the closed command/chit-chat reject list
extracts to no match on every generic-text field (any field type other
than mobile and aadhar), and so does any transcript whose cleaned
remainder after filler-word stripping is shorter than the minimum length
of 2 characters. -/
theorem C8_reject_list :
    (∀ w ∈ rejectWords, ∀ ft : Option String,
      ft ≠ some "mobile" → ft ≠ some "aadhar" → extractValue w ft = none) ∧
    (∀ (t : String) (ft : Option String),
      ft ≠ some "mobile" → ft ≠ some "aadhar" →
      (cleanGeneric t).length < 2 → extractValue t ft = none) := by
  constructor
  · intro w hw ft h1 h2
    rw [extractValue_generic _ _ h1 h2]
    fin_cases hw <;> decide
  · intro t ft h1 h2 hlen
    rw [extractValue_generic _ _ h1 h2]
    by_cases ht : t = ""
    · simp [ht]
    · rw [if_neg ht, if_pos]
      simp [hlen]

/-- C8 witness: the reject-list and minimum-length behavior at concrete
inputs ("stop" from the list; "is" cleans to the empty string). -/
theorem C8_witness :
    extractValue "stop" (some "name") = none ∧
    extractValue "is" (some "address") = none :=
  ⟨C8_reject_list.1 "stop" (by decide) (some "name") (by decide) (by decide),
   C8_reject_list.2 "is" (some "address") (by decide) (by decide) (by decide)⟩

/-- C6 (amended): for every nonempty `speak` call of the hook's remote
text-to-speech path, at least one completion signal resolves and the
state passes Speaking → Listening — each completion is paired with a
`listening` assignment, so a failed utterance never blocks progress —
and whenever the remote request fails (thrown fetch or non-ok status) or
the returned audio cannot be played (blocked autoplay or an
empty/undecodable payload, both rejecting `play()`), the local on-device
synthesizer is used.  The completion signal is not always single: it
fires twice exactly when the request succeeds but the payload is
unplayable media, because the element's `error` event handler and the
rejected `play()` fallback run independently. -/
theorem C6_fallback (env : SpeakEnv) (text : String) (ht : text ≠ "") :
    1 ≤ (speakRemote env text).onEndCount ∧
    (speakRemote env text).onEndCount ≤ 2 ∧
    ((speakRemote env text).onEndCount = 2 ↔
      (env.fetchThrows = false ∧ env.responseOk = true ∧
       env.mediaErrors = true ∧ env.playRejects = true)) ∧
    (speakRemote env text).stateTrace =
      .speaking :: List.replicate (speakRemote env text).onEndCount .listening ∧
    ((speakRemote env text).usedLocal = true ↔
      (env.fetchThrows = true ∨ env.responseOk = false ∨
       env.playRejects = true)) := by
  unfold speakRemote fallbackSpeak
  rw [if_neg ht]
  by_cases h1 : env.fetchThrows <;> by_cases h2 : env.responseOk <;>
    by_cases h3 : env.mediaErrors <;> by_cases h4 : env.playRejects <;>
      by_cases h5 : env.localErrors <;>
        simp [h1, h2, h3, h4, h5, List.replicate]

/-- C6 counterexample to the claim as stated: a 200 response whose
payload is unplayable media — the element's `error` event fires its
handler and `play()` rejects into `fallbackSpeak`, so the completion
signal fires twice, not once, and the state is assigned `listening`
twice. -/
theorem C6_counterexample :
    (speakRemote ⟨false, true, true, true, false⟩ "Namaste").onEndCount = 2 ∧
    ¬((speakRemote ⟨false, true, true, true, false⟩ "Namaste").onEndCount = 1) ∧
    (speakRemote ⟨false, true, true, true, false⟩ "Namaste").stateTrace =
      [.speaking, .listening, .listening] ∧
    (speakRemote ⟨false, true, true, true, false⟩ "Namaste").usedLocal = true := by
  decide

/-- C6 witness: a failed remote request with an error-ending local
utterance fires one completion, transitions Speaking → Listening, and
uses the local synthesizer. -/
theorem C6_witness :
    1 ≤ (speakRemote ⟨true, true, false, false, true⟩ "Namaste").onEndCount ∧
    (speakRemote ⟨true, true, false, false, true⟩ "Namaste").onEndCount ≤ 2 ∧
    ((speakRemote ⟨true, true, false, false, true⟩ "Namaste").onEndCount = 2 ↔
      ((true : Bool) = false ∧ (true : Bool) = true ∧
       (false : Bool) = true ∧ (false : Bool) = true)) ∧
    (speakRemote ⟨true, true, false, false, true⟩ "Namaste").stateTrace =
      .speaking :: List.replicate
        (speakRemote ⟨true, true, false, false, true⟩ "Namaste").onEndCount .listening ∧
    ((speakRemote ⟨true, true, false, false, true⟩ "Namaste").usedLocal = true ↔
      ((true : Bool) = true ∨ (true : Bool) = false ∨ (false : Bool) = true)) :=
  C6_fallback ⟨true, true, false, false, true⟩ "Namaste" (by decide)

/-- C1 (amended): the mobile extraction returns either a digit string of
length at most 10 or no match — the first run of ten consecutive digits
when one is present, and no match exactly when the transcript contains no
digit at all (otherwise all digits truncated to ten); the aadhar
extraction returns either a 4-4-4 digit grouping with optional single
separating spaces or a digit string of length at most 12, or no match.
The claim's "exactly 10 digits" is weakened to "at most 10" because the
fallback `replace(/\D/g, '').slice(0, 10)` keeps transcripts with fewer
than ten digits. -/
theorem C1_amended (t : String) :
    (∀ v, extractValue t (some "mobile") = some v →
      (∀ c ∈ v.toList, c.isDigit) ∧ v.length ≤ 10) ∧
    (∀ r, findRun10 t.toList = some r →
      extractValue t (some "mobile") = some (String.mk r)) ∧
    (extractValue t (some "mobile") = none ↔ t.toList.filter Char.isDigit = []) ∧
    (∀ v, extractValue t (some "aadhar") = some v →
      isAadharGroup v.toList ∨ ((∀ c ∈ v.toList, c.isDigit) ∧ v.length ≤ 12)) := by
  by_cases ht : t = ""
  · subst ht
    refine ⟨?_, ?_, ?_, ?_⟩
    · intro v hv; rw [extractValue_empty] at hv; exact Option.noConfusion hv
    · intro r hr; simp [findRun10] at hr
    · simp [extractValue_empty]
    · intro v hv; rw [extractValue_empty] at hv; exact Option.noConfusion hv
  · have hm : extractValue t (some "mobile") =
        match findRun10 t.toList with
        | some r => some (String.mk r)
        | none =>
          if (t.toList.filter Char.isDigit).take 10 = [] then none
          else some (String.mk ((t.toList.filter Char.isDigit).take 10)) := by
      unfold extractValue
      rw [if_neg ht, if_pos rfl]
    have ha : extractValue t (some "aadhar") =
        match findAadhar t.toList with
        | some m => some (String.mk m)
        | none =>
          if (t.toList.filter Char.isDigit).take 12 = [] then none
          else some (String.mk ((t.toList.filter Char.isDigit).take 12)) := by
      unfold extractValue
      rw [if_neg ht, if_neg (by decide), if_pos rfl]
    refine ⟨?_, ?_, ?_, ?_⟩
    · intro v hv
      rw [hm] at hv
      cases hr : findRun10 t.toList with
      | some r =>
        rw [hr] at hv
        obtain rfl : String.mk r = v := by simpa using hv
        obtain ⟨hlen, hdig⟩ := findRun10_spec _ _ hr
        exact ⟨by intro c hc; exact hdig c (by simpa using hc),
               by simp [String.length, hlen]⟩
      | none =>
        rw [hr] at hv
        by_cases hd : (t.toList.filter Char.isDigit).take 10 = []
        · rw [if_pos hd] at hv; exact Option.noConfusion hv
        · rw [if_neg hd] at hv
          obtain rfl : String.mk ((t.toList.filter Char.isDigit).take 10) = v := by
            simpa using hv
          constructor
          · intro c hc
            have hc2 : c ∈ t.toList.filter Char.isDigit :=
              List.mem_of_mem_take (by simpa using hc)
            exact (List.mem_filter.mp hc2).2
          · simp [String.length, List.length_take_le]
    · intro r hr
      rw [hm, hr]
    · rw [hm]
      cases hr : findRun10 t.toList with
      | some r =>
        constructor
        · intro h; exact Option.noConfusion h
        · intro hfil
          obtain ⟨c, hc, hdig⟩ := findRun10_digit _ _ hr
          have hmem : c ∈ t.toList.filter Char.isDigit := List.mem_filter.mpr ⟨hc, hdig⟩
          rw [hfil] at hmem
          simp at hmem
      | none =>
        by_cases hd : (t.toList.filter Char.isDigit).take 10 = []
        · rw [if_pos hd]
          constructor
          · intro _
            rcases List.take_eq_nil_iff.mp hd with h10 | hnil
            · exact absurd h10 (by decide)
            · exact hnil
          · intro _; rfl
        · rw [if_neg hd]
          constructor
          · intro h; exact Option.noConfusion h
          · intro hfil; rw [hfil] at hd; simp at hd
    · intro v hv
      rw [ha] at hv
      cases hr : findAadhar t.toList with
      | some m =>
        rw [hr] at hv
        obtain rfl : String.mk m = v := by simpa using hv
        left
        simpa using findAadhar_group _ _ hr
      | none =>
        rw [hr] at hv
        by_cases hd : (t.toList.filter Char.isDigit).take 12 = []
        · rw [if_pos hd] at hv; exact Option.noConfusion hv
        · rw [if_neg hd] at hv
          obtain rfl : String.mk ((t.toList.filter Char.isDigit).take 12) = v := by
            simpa using hv
          right
          constructor
          · intro c hc
            have hc2 : c ∈ t.toList.filter Char.isDigit :=
              List.mem_of_mem_take (by simpa using hc)
            exact (List.mem_filter.mp hc2).2
          · simp [String.length, List.length_take_le]

/-- C1 counterexample to the claim as stated: on the transcript "1234"
the mobile extraction returns "1234", a value of 4 digits — neither a
string of exactly 10 digits nor no match. -/
theorem C1_counterexample :
    extractValue "1234" (some "mobile") = some "1234" ∧
    ¬(("1234" : String).length = 10) ∧
    ¬(extractValue "1234" (some "mobile") = none) := by
  decide

/-- C1 witness: the first ten-digit run of a concrete transcript is
returned, and a spaced aadhar grouping satisfies the format disjunction. -/
theorem C1_witness :
    extractValue "ring 9876543210 now" (some "mobile") =
      some (String.mk "9876543210".toList) ∧
    (isAadharGroup ("1234 5678 9012" : String).toList ∨
      ((∀ c ∈ ("1234 5678 9012" : String).toList, c.isDigit) ∧
        ("1234 5678 9012" : String).length ≤ 12)) :=
  ⟨(C1_amended "ring 9876543210 now").2.1 ("9876543210".toList) (by decide),
   (C1_amended "1234 5678 9012").2.2.2 "1234 5678 9012" (by decide)⟩

/-! ## Invariants of the audio playback model -/

theorem not_mem_erase_self_of_count_le_one {l : List Nat} {a : Nat}
    (h : l.count a ≤ 1) : a ∉ l.erase a := by
  rw [← List.count_eq_zero, List.count_erase_self]
  omega

theorem not_mem_erase_of_not_mem {l : List Nat} {a b : Nat}
    (h : a ∉ l) : a ∉ l.erase b :=
  fun hm => h (List.mem_of_mem_erase hm)

theorem mem_imp_count_pos {l : List Nat} {a : Nat} (h : a ∈ l) : 1 ≤ l.count a :=
  List.count_pos_iff.mpr h

theorem audioInv_init : AudioInv initAudio := by
  refine ⟨?_, ?_, ?_, ?_, ?_, ?_, ?_, ?_, ?_, ?_⟩ <;> intro u <;> simp [initAudio]

theorem audioInv_step (s : AudioSys) (e : AEvent) (h : AudioInv s) :
    AudioInv (astep s e) := by
  obtain ⟨hp1, hg1, hdisj, hps, hgs, hpe, hge, hse, he1, hcur⟩ := h
  cases e with
  | start u =>
    simp only [astep]
    by_cases hu : u ∈ s.started
    · rw [if_pos hu]
      exact ⟨hp1, hg1, hdisj, hps, hgs, hpe, hge, hse, he1, hcur⟩
    · rw [if_neg hu]
      have hupend : u ∉ s.pending := fun hc => hu (hps u hc)
      have huplay : u ∉ s.playing := fun hc => hu (hgs u hc)
      cases hc : s.current with
      | some c =>
        dsimp only
        refine ⟨?_, ?_, ?_, ?_, ?_, ?_, ?_, ?_, ?_, ?_⟩
        · intro w
          rw [List.count_append, List.count_singleton]
          by_cases hw : w = u
          · subst hw
            have := List.count_eq_zero.mpr hupend
            simp [this]
          · have : ¬((u == w) = true) := by simpa using fun h => hw h.symm
            rw [if_neg this]
            have := hp1 w
            omega
        · intro w
          exact le_trans ((List.erase_sublist c s.playing).count_le w) (hg1 w)
        · intro w hw
          rcases List.mem_append.mp hw with hw | hw
          · exact not_mem_erase_of_not_mem (hdisj w hw)
          · obtain rfl : w = u := by simpa using hw
            exact not_mem_erase_of_not_mem huplay
        · intro w hw
          rcases List.mem_append.mp hw with hw | hw
          · exact List.mem_cons_of_mem _ (hps w hw)
          · obtain rfl : w = u := by simpa using hw
            exact List.mem_cons_self _ _
        · intro w hw
          exact List.mem_cons_of_mem _ (hgs w (List.mem_of_mem_erase hw))
        · intro w hw
          rcases List.mem_append.mp hw with hw | hw
          · exact hpe w hw
          · obtain rfl : w = u := by simpa using hw
            exact hse _ hu
        · intro w hw
          exact hge w (List.mem_of_mem_erase hw)
        · intro w hw
          exact hse w (fun hc2 => hw (List.mem_cons_of_mem _ hc2))
        · exact he1
        · intro w hw
          exact Option.noConfusion hw
      | none =>
        dsimp only
        refine ⟨?_, ?_, ?_, ?_, ?_, ?_, ?_, ?_, ?_, ?_⟩
        · intro w
          rw [List.count_append, List.count_singleton]
          by_cases hw : w = u
          · subst hw
            have := List.count_eq_zero.mpr hupend
            simp [this]
          · have : ¬((u == w) = true) := by simpa using fun h => hw h.symm
            rw [if_neg this]
            have := hp1 w
            omega
        · exact hg1
        · intro w hw
          rcases List.mem_append.mp hw with hw | hw
          · exact hdisj w hw
          · obtain rfl : w = u := by simpa using hw
            exact huplay
        · intro w hw
          rcases List.mem_append.mp hw with hw | hw
          · exact List.mem_cons_of_mem _ (hps w hw)
          · obtain rfl : w = u := by simpa using hw
            exact List.mem_cons_self _ _
        · intro w hw
          exact List.mem_cons_of_mem _ (hgs w hw)
        · intro w hw
          rcases List.mem_append.mp hw with hw | hw
          · exact hpe w hw
          · obtain rfl : w = u := by simpa using hw
            exact hse _ hu
        · exact hge
        · intro w hw
          exact hse w (fun hc2 => hw (List.mem_cons_of_mem _ hc2))
        · exact he1
        · intro w hw
          dsimp only at hw
          rw [hc] at hw
          exact Option.noConfusion hw
  | resolve u =>
    simp only [astep]
    by_cases hu : u ∈ s.pending
    · rw [if_pos hu]
      refine ⟨?_, ?_, ?_, ?_, ?_, ?_, ?_, ?_, ?_, ?_⟩
      · intro w
        exact le_trans ((List.erase_sublist u s.pending).count_le w) (hp1 w)
      · intro w
        rw [List.count_append, List.count_singleton]
        by_cases hw : w = u
        · subst hw
          have := List.count_eq_zero.mpr (hdisj w hu)
          simp [this]
        · have : ¬((u == w) = true) := by simpa using fun h => hw h.symm
          rw [if_neg this]
          have := hg1 w
          omega
      · intro w hw
        have hwp : w ∈ s.pending := List.mem_of_mem_erase hw
        have hwu : w ≠ u := by
          intro heq
          rw [heq] at hw
          exact not_mem_erase_self_of_count_le_one (hp1 u) hw
        intro hc
        rcases List.mem_append.mp hc with hc | hc
        · exact hdisj w hwp hc
        · exact hwu (by simpa using hc)
      · intro w hw
        exact hps w (List.mem_of_mem_erase hw)
      · intro w hw
        rcases List.mem_append.mp hw with hw | hw
        · exact hgs w hw
        · obtain rfl : w = u := by simpa using hw
          exact hps _ hu
      · intro w hw
        exact hpe w (List.mem_of_mem_erase hw)
      · intro w hw
        rcases List.mem_append.mp hw with hw | hw
        · exact hge w hw
        · obtain rfl : w = u := by simpa using hw
          exact hpe _ hu
      · exact hse
      · exact he1
      · intro w hw
        obtain rfl : u = w := by simpa using hw
        exact List.mem_append.mpr (Or.inr (List.mem_singleton.mpr rfl))
    · rw [if_neg hu]
      exact ⟨hp1, hg1, hdisj, hps, hgs, hpe, hge, hse, he1, hcur⟩
  | finish u =>
    simp only [astep]
    by_cases hu : u ∈ s.playing
    · rw [if_pos hu]
      refine ⟨?_, ?_, ?_, ?_, ?_, ?_, ?_, ?_, ?_, ?_⟩
      · exact hp1
      · intro w
        exact le_trans ((List.erase_sublist u s.playing).count_le w) (hg1 w)
      · intro w hw
        exact not_mem_erase_of_not_mem (hdisj w hw)
      · exact hps
      · intro w hw
        exact hgs w (List.mem_of_mem_erase hw)
      · intro w hw
        rw [List.count_append, List.count_singleton]
        have hwu : w ≠ u := by
          intro heq
          rw [heq] at hw
          exact hdisj u hw hu
        have : ¬((u == w) = true) := by simpa using fun h => hwu h.symm
        rw [if_neg this]
        have := hpe w hw
        omega
      · intro w hw
        have hwp : w ∈ s.playing := List.mem_of_mem_erase hw
        have hwu : w ≠ u := by
          intro heq
          rw [heq] at hw
          exact not_mem_erase_self_of_count_le_one (hg1 u) hw
        rw [List.count_append, List.count_singleton]
        have : ¬((u == w) = true) := by simpa using fun h => hwu h.symm
        rw [if_neg this]
        have := hge w hwp
        omega
      · intro w hw
        rw [List.count_append, List.count_singleton]
        have hwu : w ≠ u := by
          intro heq
          rw [heq] at hw
          exact hw (hgs u hu)
        have : ¬((u == w) = true) := by simpa using fun h => hwu h.symm
        rw [if_neg this]
        have := hse w hw
        omega
      · intro w
        rw [List.count_append, List.count_singleton]
        by_cases hw : w = u
        · subst hw
          have := hge w hu
          simp [this]
        · have : ¬((u == w) = true) := by simpa using fun h => hw h.symm
          rw [if_neg this]
          have := he1 w
          omega
      · intro w hw
        exact Option.noConfusion hw
    · rw [if_neg hu]
      exact ⟨hp1, hg1, hdisj, hps, hgs, hpe, hge, hse, he1, hcur⟩

theorem audioInv_run : ∀ (evs : List AEvent) (s : AudioSys),
    AudioInv s → AudioInv (runAudio s evs) := by
  intro evs
  induction evs with
  | nil => intro s h; exact h
  | cons e evs' ih =>
    intro s h
    rw [runAudio, List.foldl_cons]
    exact ih _ (audioInv_step s e h)

/-- A cancelled utterance — started, no longer requested, no longer
playing — stays that way under any further event, and its completion
count never changes. -/
theorem cancelled_step (s : AudioSys) (c : Nat) (e : AEvent)
    (h1 : c ∈ s.started) (h2 : c ∉ s.pending) (h3 : c ∉ s.playing) :
    c ∈ (astep s e).started ∧ c ∉ (astep s e).pending ∧
    c ∉ (astep s e).playing ∧ (astep s e).ends.count c = s.ends.count c := by
  cases e with
  | start u =>
    simp only [astep]
    by_cases hu : u ∈ s.started
    · rw [if_pos hu]
      exact ⟨h1, h2, h3, rfl⟩
    · rw [if_neg hu]
      have hcu : c ≠ u := fun heq => hu (heq ▸ h1)
      cases hc : s.current with
      | some cc =>
        dsimp only
        refine ⟨List.mem_cons_of_mem _ h1, ?_, not_mem_erase_of_not_mem h3, rfl⟩
        intro hm
        rcases List.mem_append.mp hm with hm | hm
        · exact h2 hm
        · exact hcu (by simpa using hm)
      | none =>
        dsimp only
        refine ⟨List.mem_cons_of_mem _ h1, ?_, h3, rfl⟩
        intro hm
        rcases List.mem_append.mp hm with hm | hm
        · exact h2 hm
        · exact hcu (by simpa using hm)
  | resolve u =>
    simp only [astep]
    by_cases hu : u ∈ s.pending
    · rw [if_pos hu]
      have hcu : c ≠ u := fun heq => h2 (heq ▸ hu)
      dsimp only
      refine ⟨h1, fun hm => h2 (List.mem_of_mem_erase hm), ?_, rfl⟩
      intro hm
      rcases List.mem_append.mp hm with hm | hm
      · exact h3 hm
      · exact hcu (by simpa using hm)
    · rw [if_neg hu]
      exact ⟨h1, h2, h3, rfl⟩
  | finish u =>
    simp only [astep]
    by_cases hu : u ∈ s.playing
    · rw [if_pos hu]
      have hcu : c ≠ u := fun heq => h3 (heq ▸ hu)
      dsimp only
      refine ⟨h1, h2, fun hm => h3 (List.mem_of_mem_erase hm), ?_⟩
      rw [List.count_append, List.count_singleton]
      have : ¬((u == c) = true) := by simpa using fun h => hcu h.symm
      rw [if_neg this]
      omega
    · rw [if_neg hu]
      exact ⟨h1, h2, h3, rfl⟩

theorem cancelled_run : ∀ (evs : List AEvent) (s : AudioSys) (c : Nat),
    c ∈ s.started → c ∉ s.pending → c ∉ s.playing →
    (runAudio s evs).ends.count c = s.ends.count c := by
  intro evs
  induction evs with
  | nil => intro s c _ _ _; rfl
  | cons e evs' ih =>
    intro s c h1 h2 h3
    obtain ⟨g1, g2, g3, g4⟩ := cancelled_step s c e h1 h2 h3
    rw [runAudio, List.foldl_cons]
    calc (runAudio (astep s e) evs').ends.count c
        = (astep s e).ends.count c := ih (astep s e) c g1 g2 g3
      _ = s.ends.count c := g4

theorem discInv_init : DiscInv initAudio := Or.inl ⟨rfl, Or.inl rfl⟩

theorem discInv_playing_len (s : AudioSys) (h : DiscInv s) : s.playing.length ≤ 1 := by
  rcases h with ⟨-, h | ⟨c, -, h⟩⟩ | ⟨u, -, h, -⟩ <;> simp [h]

theorem discInv_step (s : AudioSys) (e : AEvent) (h : DiscInv s)
    (hdisc : ∀ u, e = .start u → s.pending = []) : DiscInv (astep s e) := by
  cases e with
  | start u =>
    have hpend : s.pending = [] := hdisc u rfl
    simp only [astep]
    by_cases hu : u ∈ s.started
    · rw [if_pos hu]; exact h
    · rw [if_neg hu]
      rcases h with ⟨-, hcase⟩ | ⟨w, hw, -, -⟩
      · rcases hcase with hplay | ⟨c, hcur, hplay⟩
        · cases hc : s.current with
          | some cc =>
            dsimp only
            refine Or.inr ⟨u, ?_, ?_, rfl⟩
            · rw [hpend]; rfl
            · rw [hplay]; rfl
          | none =>
            dsimp only
            refine Or.inr ⟨u, ?_, hplay, hc⟩
            rw [hpend]; rfl
        · rw [hcur]
          dsimp only
          refine Or.inr ⟨u, ?_, ?_, rfl⟩
          · rw [hpend]; rfl
          · rw [hplay]
            simp
      · rw [hpend] at hw
        exact absurd hw (by simp)
  | resolve u =>
    rcases h with ⟨hpend, hcase⟩ | ⟨w, hw, hplay, hcur⟩
    · simp only [astep]
      rw [if_neg (by rw [hpend]; simp)]
      exact Or.inl ⟨hpend, hcase⟩
    · simp only [astep]
      by_cases hu : u ∈ s.pending
      · rw [if_pos hu]
        have huw : u = w := by rw [hw] at hu; simpa using hu
        subst huw
        refine Or.inl ⟨?_, Or.inr ⟨u, rfl, ?_⟩⟩
        · rw [hw]; simp
        · rw [hplay]; rfl
      · rw [if_neg hu]
        exact Or.inr ⟨w, hw, hplay, hcur⟩
  | finish u =>
    rcases h with ⟨hpend, hcase⟩ | ⟨w, hw, hplay, hcur⟩
    · rcases hcase with hplay | ⟨c, hcur, hplay⟩
      · simp only [astep]
        rw [if_neg (by rw [hplay]; simp)]
        exact Or.inl ⟨hpend, Or.inl hplay⟩
      · simp only [astep]
        by_cases hu : u ∈ s.playing
        · rw [if_pos hu]
          have huc : u = c := by rw [hplay] at hu; simpa using hu
          refine Or.inl ⟨hpend, Or.inl ?_⟩
          rw [hplay, huc]
          simp
        · rw [if_neg hu]
          exact Or.inl ⟨hpend, Or.inr ⟨c, hcur, hplay⟩⟩
    · simp only [astep]
      rw [if_neg (by rw [hplay]; simp)]
      exact Or.inr ⟨w, hw, hplay, hcur⟩

theorem discInv_run : ∀ (evs : List AEvent) (s : AudioSys),
    DiscInv s → startsIdle s evs → ∀ n,
    (runAudio s (evs.take n)).playing.length ≤ 1 := by
  intro evs
  induction evs with
  | nil =>
    intro s h _ n
    simp only [List.take_nil]
    exact discInv_playing_len s h
  | cons e evs' ih =>
    intro s h hdisc n
    obtain ⟨hd1, hd2⟩ := hdisc
    cases n with
    | zero =>
      simp only [List.take_zero]
      exact discInv_playing_len s h
    | succ m =>
      rw [List.take_succ_cons, runAudio, List.foldl_cons]
      exact ih (astep s e) (discInv_step s e h hd1) hd2 m

/-- C5 (amended): in the audio model of `speak`, (1) every utterance's
completion signal fires at most once, over any event sequence; (2) when
every `speak` call begins with no `/speak` request still in flight — in
particular when each new call is issued while the previous utterance is
already playing or finished — at most one utterance is playing at any
time; (3) a `speak` call issued while an utterance is tracked as playing
pauses it, detaches its handler, and its completion signal never fires
afterwards.  The unconditional form of "at most one active utterance at
any time" is false: see the counterexample, where a second `speak` begins
while the first request is still in flight and both audios end up
playing. -/
theorem C5_amended :
    (∀ (evs : List AEvent) (u : Nat),
      (runAudio initAudio evs).ends.count u ≤ 1) ∧
    (∀ evs : List AEvent, startsIdle initAudio evs →
      ∀ n, (runAudio initAudio (evs.take n)).playing.length ≤ 1) ∧
    (∀ (evs : List AEvent) (c u : Nat),
      (runAudio initAudio evs).current = some c →
      u ∉ (runAudio initAudio evs).started →
      c ∉ (astep (runAudio initAudio evs) (.start u)).playing ∧
      ∀ evs' : List AEvent,
        (runAudio (astep (runAudio initAudio evs) (.start u)) evs').ends.count c =
          (runAudio initAudio evs).ends.count c) := by
  refine ⟨?_, ?_, ?_⟩
  · intro evs u
    obtain ⟨-, -, -, -, -, -, -, -, he1, -⟩ :=
      audioInv_run evs initAudio audioInv_init
    exact he1 u
  · intro evs hdisc n
    exact discInv_run evs initAudio discInv_init hdisc n
  · intro evs c u hcur hu
    obtain ⟨hp1, hg1, hdisj, hps, hgs, hpe, hge, hse, he1, hcurinv⟩ :=
      audioInv_run evs initAudio audioInv_init
    have hcplay : c ∈ (runAudio initAudio evs).playing := hcurinv c hcur
    have hcstart : c ∈ (runAudio initAudio evs).started := hgs c hcplay
    have hcpend : c ∉ (runAudio initAudio evs).pending :=
      fun hm => hdisj c hm hcplay
    have hcu : c ≠ u := fun heq => hu (heq ▸ hcstart)
    have hstep : astep (runAudio initAudio evs) (.start u) =
        { runAudio initAudio evs with
          playing := (runAudio initAudio evs).playing.erase c,
          current := none,
          pending := (runAudio initAudio evs).pending ++ [u],
          started := u :: (runAudio initAudio evs).started } := by
      simp only [astep]
      rw [if_neg hu, hcur]
    rw [hstep]
    constructor
    · exact not_mem_erase_self_of_count_le_one (hg1 c)
    · intro evs'
      refine cancelled_run evs' _ c (List.mem_cons_of_mem _ hcstart) ?_
        (not_mem_erase_self_of_count_le_one (hg1 c))
      intro hm
      rcases List.mem_append.mp hm with hm | hm
      · exact hcpend hm
      · exact hcu (by simpa using hm)

/-- C5 counterexample to the claim as stated: two `speak` calls whose
`/speak` requests overlap — the second is issued while the first is still
being fetched, so nothing is cancelled, and once both requests resolve two
utterances are playing at the same time, refuting "at most one utterance
is active system-wide at any time". -/
theorem C5_counterexample :
    (runAudio initAudio [.start 1, .start 2, .resolve 1, .resolve 2]).playing = [1, 2] ∧
    ¬((runAudio initAudio
        [.start 1, .start 2, .resolve 1, .resolve 2]).playing.length ≤ 1) := by
  decide

/-- C5 witness: concrete instance of the amended guarantees — a second
speak issued while utterance 1 is playing removes it from the playing set,
and even a later natural finish event never fires its completion. -/
theorem C5_witness :
    1 ∉ (astep (runAudio initAudio [.start 1, .resolve 1]) (.start 2)).playing ∧
    (runAudio (astep (runAudio initAudio [.start 1, .resolve 1]) (.start 2))
        [.finish 1]).ends.count 1 =
      (runAudio initAudio [.start 1, .resolve 1]).ends.count 1 := by
  obtain ⟨h1, h2⟩ :=
    C5_amended.2.2 [.start 1, .resolve 1] 1 2 (by decide) (by decide)
  exact ⟨h1, h2 [.finish 1]⟩

end JanSahayak
